import Mathlib

/-!
# user-service: the record store and the request handlers

A shallow embedding of `internal/storage/storage.go` and of the handlers of
`cmd/user-service/main.go`.

* The store's Go map is an association list without duplicate keys; the
  order in which `range` walks it is a parameter (`MapIter`), because Go
  leaves that order unspecified.
* The mutex is not modelled: every operation is a function from the store
  before to the store after.
* Go's `int` is 64 bits wide: arithmetic on it is arithmetic on `Int`
  followed by `wrapInt`.
* The collaborators outside the repository are inputs: the decoded request
  body (`encoding/json`), the generated id (`uuid`) and the clock readings
  (`time.Now`). `strconv.Atoi` and `strings.TrimPrefix` are modelled after
  the Go standard library.
* A handler returns `none` for the response when it ends in a run-time
  panic, and the response it wrote otherwise.
* A Go slice is either the nil slice or a slice with elements (`Slice`): the
  JSON encoder writes `null` for the first and an array for the second.
-/

namespace UserService

/-! ## Data model -/

/-- An instant of `time.Time`. `0` is the zero value, which is what a body
that does not carry the field decodes to. -/
abbrev Time := Nat

/-- Modelled from the spec: the record type `user.User` of package
`internal/user`, whose declaration is not among the sources. Section 3 of
the specification lists its attributes; the handlers and tests use exactly
these field names. -/
structure User where
  ID : String
  FirstName : String
  LastName : String
  Nickname : String
  Password : String
  Email : String
  Country : String
  CreatedAt : Time
  UpdatedAt : Time
deriving DecidableEq, Repr

/-- The zero value of `user.User`: what `var u user.User` holds and what a
map lookup yields for an absent key. -/
def User.zero : User := ⟨"", "", "", "", "", "", "", 0, 0⟩

/-- A Go `map[string]user.User`: finitely many entries, at most one per key. -/
abbrev UserMap := AList (fun _ : String => User)

/-- The order in which one `for ... range` statement walks the entries of a
map. Go does not specify it, so it is any rearrangement of the entries. -/
structure MapIter where
  order : List (Sigma (fun _ : String => User)) → List (Sigma (fun _ : String => User))
  perm : ∀ l, (order l).Perm l

/-- The iteration that walks the entries as they are laid out. -/
def MapIter.asStored : MapIter := ⟨fun l => l, fun l => List.Perm.refl l⟩

/-- The iteration that walks the entries back to front. -/
def MapIter.backwards : MapIter := ⟨List.reverse, List.reverse_perm⟩

/-! ## `internal/storage` -/

/-- The struct `Storage`: the map of users (the mutex guards it and carries no data). -/
structure Storage where
  users : UserMap

namespace Storage

/-- Function `storage.New`: a store with an empty map. -/
def New : Storage := ⟨∅⟩

/-- Method `AddUser`: `s.users[u.ID] = u`. -/
def AddUser (s : Storage) (u : User) : Storage := ⟨s.users.insert u.ID u⟩

/-- Method `GetUser`: `u, exists := s.users[id]`; an absent key yields the zero value and `false`. -/
def GetUser (s : Storage) (id : String) : User × Bool :=
  match s.users.lookup id with
  | some u => (u, true)
  | none => (User.zero, false)

/-- Method `UpdateUser`: `s.users[u.ID] = u`. -/
def UpdateUser (s : Storage) (u : User) : Storage := ⟨s.users.insert u.ID u⟩

/-- Method `DeleteUser`: `delete(s.users, id)`. -/
def DeleteUser (s : Storage) (id : String) : Storage := ⟨s.users.erase id⟩

/-- Method `ListUsers`: starts from an empty slice and appends every value met while
ranging over the map. -/
def ListUsers (s : Storage) (it : MapIter) : List User :=
  (it.order s.users.entries).foldl (fun users e => users ++ [e.2]) []

/-- The stores a program can hold: `New()` followed by any sequence of the
mutating operations (the map is not exported, so there is no other way). -/
inductive Reachable : Storage → Prop
  | new : Reachable New
  | add (s : Storage) (u : User) : Reachable s → Reachable (s.AddUser u)
  | update (s : Storage) (u : User) : Reachable s → Reachable (s.UpdateUser u)
  | delete (s : Storage) (id : String) : Reachable s → Reachable (s.DeleteUser id)

end Storage

/-! ## Go library functions used by the handlers -/

/-- Reduction of a mathematical integer to the 64-bit two's complement `int`. -/
def wrapInt (x : Int) : Int := (x + 2 ^ 63) % 2 ^ 64 - 2 ^ 63

/-- Largest `uint64`. -/
def maxUint64 : Nat := 2 ^ 64 - 1

/-- The digit loop of `strconv.ParseUint(s, 10, 64)`, with the value read so
far. The flag is `true` when an error is returned: `(0, true)` for a byte that
is not a decimal digit, `(maxUint64, true)` as soon as the value overflows. -/
def parseUintLoop : List Char → Nat → Nat × Bool
  | [], n => (n, false)
  | c :: cs, n =>
    if '0' ≤ c ∧ c ≤ '9' then
      if n ≥ maxUint64 / 10 + 1 then (maxUint64, true)
      else
        let n1 := n * 10 + (c.toNat - '0'.toNat)
        if n1 > maxUint64 then (maxUint64, true) else parseUintLoop cs n1
    else (0, true)

/-- Function `strconv.ParseInt(s, 10, 0)` once the sign is taken off: `neg` tells whether
the sign was `-`, `digits` is the rest. An empty rest or a byte that is not a
digit gives `(0, true)`; a magnitude outside the `int` range gives the nearest
bound of the range and `true`. -/
def parseSigned (neg : Bool) (digits : List Char) : Int × Bool :=
  match digits with
  | [] => (0, true)
  | _ :: _ =>
    let p := parseUintLoop digits 0
    if p.2 = true ∧ p.1 = 0 then (0, true)
    else if neg = false ∧ p.1 ≥ 2 ^ 63 then (2 ^ 63 - 1, true)
    else if neg = true ∧ p.1 > 2 ^ 63 then (-(2 ^ 63), true)
    else (if neg = true then -(p.1 : Int) else (p.1 : Int), p.2)

/-- Function `strconv.Atoi` on a 64-bit platform: the value and whether an error came
with it. An empty string, a lone sign or a byte that is not a digit give
`(0, true)`; a number outside the `int` range gives the nearest bound of the
range and `true`. -/
def Atoi (s : String) : Int × Bool :=
  match s.data with
  | [] => (0, true)
  | c :: cs =>
    if c = '+' then parseSigned false cs
    else if c = '-' then parseSigned true cs
    else parseSigned false (c :: cs)

/-- Function `strings.TrimPrefix`: `s` without the leading `pre` when it starts with it, else `s`. -/
def TrimPrefix (s pre : String) : String :=
  if pre.data.isPrefixOf s.data then ⟨s.data.drop pre.data.length⟩ else s

/-- The slice expression `l[lo:hi]`: defined when `0 ≤ lo ≤ hi ≤ len(l)`; otherwise
the run-time panics (`none`). The handler only ever uses `hi ≤ len(l)`. -/
def sliceExpr (l : List User) (lo hi : Int) : Option (List User) :=
  if 0 ≤ lo ∧ lo ≤ hi ∧ hi ≤ (l.length : Int) then some ((l.take hi.toNat).drop lo.toNat) else none

/-- A value of type `[]user.User`: the nil slice, which is what `var s []user.User`
declares, or a slice backed by an array, with its elements (possibly none). -/
inductive Slice where
  /-- The nil slice. -/
  | nil
  /-- A slice that is not nil. -/
  | of (elems : List User)
deriving DecidableEq, Repr

/-- The elements of a slice; the nil slice has none. -/
def Slice.elems : Slice → List User
  | Slice.nil => []
  | Slice.of l => l

/-- The built-in `len(s)`. -/
def Slice.len (s : Slice) : Nat := s.elems.length

/-- The built-in `append(s, u)`: the result is never nil. -/
def Slice.append (s : Slice) (u : User) : Slice := Slice.of (s.elems ++ [u])

/-- The slice expression `s[lo:hi]` on a slice value: out of range it panics
(`none`); in range it is nil when `s` is nil and not nil otherwise, also when
it has no element. -/
def Slice.slice (s : Slice) (lo hi : Int) : Option Slice :=
  match s with
  | Slice.nil => (sliceExpr [] lo hi).map (fun _ => Slice.nil)
  | Slice.of l => (sliceExpr l lo hi).map Slice.of

/-! ## `cmd/user-service`: requests and responses -/

/-- What a handler reads of an `*http.Request`. -/
structure Request where
  /-- Field `r.Method`. -/
  Method : String
  /-- Field `r.URL.Path`. -/
  Path : String
  /-- Value of `r.URL.Query().Get("page")`, empty when the parameter is absent. -/
  page : String
  /-- Value of `r.URL.Query().Get("pageSize")`. -/
  pageSize : String
  /-- Value of `r.URL.Query().Get("country")`. -/
  country : String
  /-- What `json.NewDecoder(r.Body).Decode(&u)` leaves in `u`, or `none` when it returns an error. -/
  Body : Option User

/-- What a handler writes as the body of the response. -/
inductive Body where
  /-- Text written by `http.Error`. -/
  | text (msg : String)
  /-- One record handed to the JSON encoder. -/
  | user (u : User)
  /-- A slice of records that is not nil, handed to the JSON encoder, which
  writes it as an array (`[]` when it has no element). -/
  | users (l : List User)
  /-- The nil slice handed to the JSON encoder, which writes it as `null`. -/
  | null
  /-- Nothing written. -/
  | empty
deriving DecidableEq, Repr

/-- Status code and body of a response. -/
structure Response where
  status : Nat
  body : Body
deriving DecidableEq, Repr

/-- What one request meets outside the handler: the id `generateID()` returns,
two successive readings of `time.Now()`, and the order of the map iteration. -/
structure Env where
  generateID : String
  now1 : Time
  now2 : Time
  iter : MapIter

/-- Constants `http.Status...` used by the handlers. -/
def StatusOK : Nat := 200
def StatusCreated : Nat := 201
def StatusNoContent : Nat := 204
def StatusBadRequest : Nat := 400
def StatusNotFound : Nat := 404
def StatusMethodNotAllowed : Nat := 405

/-- Constants `http.Method...` used by the handlers. -/
def MethodGet : String := "GET"
def MethodPost : String := "POST"
def MethodPut : String := "PUT"
def MethodDelete : String := "DELETE"

/-- Function `http.Error(w, msg, code)`: the status code and the message followed by a newline. -/
def httpError (msg : String) (code : Nat) : Response := ⟨code, Body.text (msg ++ "\n")⟩

/-- The call `json.NewEncoder(w).Encode(paginatedUsers)`: what the response body
holds for a slice. -/
def encodeUsers : Slice → Body
  | Slice.nil => Body.null
  | Slice.of l => Body.users l

/-! ## `cmd/user-service`: handlers -/

/-- Handler `addUser`. -/
def addUser (env : Env) (s : Storage) (r : Request) : Option Response × Storage :=
  match r.Body with
  | none => (some (httpError "Invalid input" StatusBadRequest), s)
  | some u =>
    let u := { u with ID := env.generateID }
    let u := { u with CreatedAt := env.now1 }
    let u := { u with UpdatedAt := env.now2 }
    let s := s.AddUser u
    (some ⟨StatusCreated, Body.user u⟩, s)

/-- In `listUsers`: `page` after `strconv.Atoi` (error dropped) and the `page < 1` test. -/
def effectivePage (r : Request) : Int :=
  let page := (Atoi r.page).1
  if page < 1 then 1 else page

/-- In `listUsers`: `pageSize` after `strconv.Atoi` (error dropped) and the `pageSize < 1` test. -/
def effectivePageSize (r : Request) : Int :=
  let pageSize := (Atoi r.pageSize).1
  if pageSize < 1 then 10 else pageSize

/-- In `listUsers`: `var filteredUsers []user.User` and the loop that appends to
it the records of `users` that pass the filter. -/
def filterUsers (countryFilter : String) (users : List User) : Slice :=
  users.foldl
    (fun filteredUsers u =>
      if countryFilter ≠ "" ∧ u.Country ≠ countryFilter then filteredUsers
      else filteredUsers.append u)
    Slice.nil

/-- In `listUsers`: `start` and `end` as computed in `int`, before the two clamps. -/
def rawBounds (page pageSize : Int) : Int × Int :=
  let start := wrapInt ((page - 1) * pageSize)
  let end_ := wrapInt (start + pageSize)
  (start, end_)

/-- In `listUsers`: `start` and `end` after the two clamps against `len(filteredUsers)`. -/
def pageBounds (page pageSize : Int) (len : Nat) : Int × Int :=
  let (start, end_) := rawBounds page pageSize
  let start := if start > (len : Int) then (len : Int) else start
  let end_ := if end_ > (len : Int) then (len : Int) else end_
  (start, end_)

/-- In `listUsers`: the slice of `filteredUsers` taken for a page and a page size,
that is the two bounds followed by the slice expression. -/
def pageWindow (filteredUsers : List User) (page pageSize : Int) : Option (List User) :=
  let (start, end_) := pageBounds page pageSize filteredUsers.length
  sliceExpr filteredUsers start end_

/-- The part of `listUsers` after `users := store.ListUsers()`. -/
def listUsersOf (users : List User) (r : Request) : Option Response :=
  let page := effectivePage r
  let pageSize := effectivePageSize r
  let countryFilter := r.country
  let filteredUsers := filterUsers countryFilter users
  let (start, end_) := pageBounds page pageSize filteredUsers.len
  match filteredUsers.slice start end_ with
  | none => none
  | some paginatedUsers => some ⟨StatusOK, encodeUsers paginatedUsers⟩

/-- Handler `listUsers`. -/
def listUsers (env : Env) (s : Storage) (r : Request) : Option Response × Storage :=
  (listUsersOf (s.ListUsers env.iter) r, s)

/-- Handler `updateUser`. -/
def updateUser (env : Env) (s : Storage) (r : Request) (id : String) : Option Response × Storage :=
  match r.Body with
  | none => (some (httpError "Invalid input" StatusBadRequest), s)
  | some u =>
    let (existingUser, exists_) := s.GetUser id
    if ¬ exists_ then (some (httpError "User not found" StatusNotFound), s)
    else
      let u := { u with ID := existingUser.ID }
      let u := { u with CreatedAt := existingUser.CreatedAt }
      let u := { u with UpdatedAt := env.now1 }
      let s := s.UpdateUser u
      (some ⟨StatusOK, Body.user u⟩, s)

/-- Handler `deleteUser`. -/
def deleteUser (s : Storage) (id : String) : Option Response × Storage :=
  let (_, exists_) := s.GetUser id
  if ¬ exists_ then (some (httpError "User not found" StatusNotFound), s)
  else
    let s := s.DeleteUser id
    (some ⟨StatusNoContent, Body.empty⟩, s)

/-- Handler `usersCollectionHandler`. -/
def usersCollectionHandler (env : Env) (s : Storage) (r : Request) : Option Response × Storage :=
  if r.Method = MethodGet then listUsers env s r
  else if r.Method = MethodPost then addUser env s r
  else (some (httpError "Method not allowed" StatusMethodNotAllowed), s)

/-- Handler `specificUserHandler`. -/
def specificUserHandler (env : Env) (s : Storage) (r : Request) : Option Response × Storage :=
  let id := TrimPrefix r.Path "/users/"
  if id = "" ∨ id = "/" then (some (httpError "User ID required" StatusBadRequest), s)
  else if r.Method = MethodPut then updateUser env s r id
  else if r.Method = MethodDelete then deleteUser s id
  else (some (httpError "Method not allowed" StatusMethodNotAllowed), s)

/-! ## The filter as the specification words it -/

/-- Whether the country filter keeps a record, in the words of the specification:
an empty filter keeps every record, any other filter keeps the records whose
Country is that very string. -/
def keeps (countryFilter : String) (u : User) : Bool :=
  decide (countryFilter = "" ∨ u.Country = countryFilter)

/-! ## Reading a response -/

/-- The records a response body holds: those of the array, and none for `null`
and for a body that is not a list. -/
def Body.records : Body → List User
  | Body.users l => l
  | _ => []

/-- What the body holds for a window `w` of the filtered records `filtered`:
`null` when no record passed the filter, the array of `w` otherwise. -/
def windowBody (filtered w : List User) : Body :=
  match filtered with
  | [] => Body.null
  | _ :: _ => Body.users w

/-! ## Numbers in a query parameter, as the specification words them -/

/-- Whether a character is a decimal digit. -/
def isDigit (c : Char) : Bool := decide ('0' ≤ c ∧ c ≤ '9')

/-- The number a run of decimal digits denotes, continuing from `acc`. -/
def decimalValue (ds : List Char) (acc : Nat) : Nat :=
  ds.foldl (fun n c => n * 10 + (c.toNat - '0'.toNat)) acc

/-- The characters of a parameter after its sign, if it starts with one. -/
def unsignedPart (s : String) : List Char :=
  match s.data with
  | [] => []
  | c :: cs => if c = '+' ∨ c = '-' then cs else c :: cs

/-- Whether a parameter starts with a minus sign. -/
def isNegative (s : String) : Bool :=
  match s.data with
  | [] => false
  | c :: _ => decide (c = '-')

/-- The decimal digits a parameter starts with, after its sign. -/
def leadingDigits (s : String) : List Char := (unsignedPart s).takeWhile isDigit

/-- The integer a parameter denotes when it is a number, that is an optional
sign followed by one or more decimal digits and nothing else; `none` when it is
not a number, the absent (empty) parameter included. -/
def numberOf (s : String) : Option Int :=
  if unsignedPart s ≠ [] ∧ (unsignedPart s).all isDigit = true then
    some (if isNegative s = true then -(decimalValue (unsignedPart s) 0 : Int)
      else (decimalValue (unsignedPart s) 0 : Int))
  else none

/-- The coercion of a query parameter in the words of the specification: the
default when the parameter is absent, not a number or not positive, and the
number otherwise. -/
def coerceSpec (dflt : Int) (s : String) : Int :=
  match numberOf s with
  | none => dflt
  | some v => if v ≤ 0 then dflt else v

/-! ## Concrete data used to run the definitions -/

namespace Example

/-- The first record of `TestListUsersWithFilter`. -/
def alice : User := ⟨"1", "Alice", "Smith", "", "", "", "UK", 5, 5⟩

/-- The second record of `TestListUsersWithFilter`. -/
def bob : User := ⟨"2", "Bob", "Jones", "", "", "", "US", 6, 6⟩

/-- The payload of `TestUpdateUser`, here carrying an ID and a CreatedAt of its own. -/
def payload : User :=
  ⟨"2", "AliceUpdated", "Smith", "AS123", "newpassword", "alice.updated@example.com", "US", 99, 98⟩

/-- A record stored under the empty ID. -/
def nameless : User := ⟨"", "Nobody", "", "", "", "", "", 7, 7⟩

/-- An environment that walks the map as stored. -/
def env : Env := ⟨"id-3", 10, 11, MapIter.asStored⟩

/-- An environment that walks the map back to front. -/
def envBackwards : Env := ⟨"id-3", 10, 11, MapIter.backwards⟩

/-- Store holding Alice only. -/
def storeA : Storage := Storage.New.AddUser alice

/-- Store holding Alice and Bob. -/
def storeAB : Storage := (Storage.New.AddUser alice).AddUser bob

/-- Store holding one record whose ID is empty. -/
def storeNameless : Storage := Storage.New.AddUser nameless

/-- Request `PUT /users/{id}` with a decoded body. -/
def put (id : String) (body : User) : Request := ⟨"PUT", "/users/" ++ id, "", "", "", some body⟩

/-- Request `DELETE /users/{id}`. -/
def delete (id : String) : Request := ⟨"DELETE", "/users/" ++ id, "", "", "", none⟩

/-- Request `POST /users` with the outcome of decoding its body. -/
def post (body : Option User) : Request := ⟨"POST", "/users", "", "", "", body⟩

/-- Request `GET /users` with its three query parameters. -/
def get (page pageSize country : String) : Request := ⟨"GET", "/users", page, pageSize, country, none⟩

end Example

/-! ## The store: lookups after each operation -/

namespace Storage

theorem GetUser_of_lookup_some {s : Storage} {id : String} {u : User}
    (h : s.users.lookup id = some u) : s.GetUser id = (u, true) := by
  simp [GetUser, h]

theorem GetUser_of_lookup_none {s : Storage} {id : String}
    (h : s.users.lookup id = none) : s.GetUser id = (User.zero, false) := by
  simp [GetUser, h]

theorem lookup_of_GetUser_true {s : Storage} {id : String} {u : User}
    (h : s.GetUser id = (u, true)) : s.users.lookup id = some u := by
  unfold GetUser at h
  cases hl : s.users.lookup id with
  | none => simp [hl] at h
  | some v =>
    simp only [hl, Prod.mk.injEq, and_true] at h
    rw [h]

theorem lookup_of_GetUser_snd_false {s : Storage} {id : String}
    (h : (s.GetUser id).2 = false) : s.users.lookup id = none := by
  unfold GetUser at h
  cases hl : s.users.lookup id with
  | none => rfl
  | some v => simp [hl] at h

theorem GetUser_congr {s t : Storage} {id : String}
    (h : t.users.lookup id = s.users.lookup id) : t.GetUser id = s.GetUser id := by
  simp [GetUser, h]

theorem lookup_AddUser_self (s : Storage) (u : User) :
    (s.AddUser u).users.lookup u.ID = some u := by
  simp [AddUser]

theorem lookup_AddUser_ne (s : Storage) (u : User) {j : String} (h : j ≠ u.ID) :
    (s.AddUser u).users.lookup j = s.users.lookup j := by
  simp [AddUser, AList.lookup_insert_ne h]

theorem lookup_DeleteUser_self (s : Storage) (id : String) :
    (s.DeleteUser id).users.lookup id = none := by
  simp [DeleteUser]

theorem lookup_DeleteUser_ne (s : Storage) (id : String) {j : String} (h : j ≠ id) :
    (s.DeleteUser id).users.lookup j = s.users.lookup j := by
  simp [DeleteUser, AList.lookup_erase_ne h]

/-- In a reachable store every record sits under its own ID. -/
theorem Reachable.ID_eq_key {s : Storage} (hs : Reachable s) :
    ∀ (k : String) (u : User), s.users.lookup k = some u → u.ID = k := by
  induction hs with
  | new => intro k u h; simp [New] at h
  | add s v _ ih =>
    intro k u h
    by_cases hk : k = v.ID
    · subst hk
      rw [lookup_AddUser_self] at h
      injection h with h
      rw [← h]
    · rw [lookup_AddUser_ne s v hk] at h
      exact ih k u h
  | update s v _ ih =>
    intro k u h
    by_cases hk : k = v.ID
    · subst hk
      rw [show s.UpdateUser v = s.AddUser v from rfl, lookup_AddUser_self] at h
      injection h with h
      rw [← h]
    · rw [show s.UpdateUser v = s.AddUser v from rfl, lookup_AddUser_ne s v hk] at h
      exact ih k u h
  | delete s id _ ih =>
    intro k u h
    by_cases hk : k = id
    · subst hk
      rw [lookup_DeleteUser_self] at h
      cases h
    · rw [lookup_DeleteUser_ne s id hk] at h
      exact ih k u h

end Storage

/-! ## Library functions -/

theorem TrimPrefix_append (pre x : String) : TrimPrefix (pre ++ x) pre = x := by
  have h : pre.data.isPrefixOf (pre ++ x).data = true := by
    rw [String.data_append, List.isPrefixOf_iff_prefix]
    exact List.prefix_append _ _
  simp [TrimPrefix, h, String.data_append]

/-! ## `strconv.Atoi` stays within `int` -/

theorem parseSigned_range (neg : Bool) (digits : List Char) :
    -2 ^ 63 ≤ (parseSigned neg digits).1 ∧ (parseSigned neg digits).1 < 2 ^ 63 := by
  unfold parseSigned
  cases digits with
  | nil => simp
  | cons d ds =>
    simp only
    generalize parseUintLoop (d :: ds) 0 = p
    by_cases h1 : p.2 = true ∧ p.1 = 0
    · rw [if_pos h1]; simp
    · rw [if_neg h1]
      cases neg with
      | false =>
        by_cases h2 : p.1 ≥ 2 ^ 63
        · rw [if_pos ⟨rfl, h2⟩]; simp
        · have h3 : ¬ (false = true ∧ p.1 > 2 ^ 63) := fun h => Bool.noConfusion h.1
          have h4 : ¬ (false = true) := fun h => Bool.noConfusion h
          rw [if_neg (fun h => h2 h.2), if_neg h3, if_neg h4]
          simp only
          omega
      | true =>
        have h2 : ¬ (true = false ∧ p.1 ≥ 2 ^ 63) := fun h => Bool.noConfusion h.1
        rw [if_neg h2]
        by_cases h3 : p.1 > 2 ^ 63
        · rw [if_pos ⟨rfl, h3⟩]; simp
        · rw [if_neg (fun h => h3 h.2), if_pos rfl]
          simp only
          omega

theorem Atoi_range (s : String) : -2 ^ 63 ≤ (Atoi s).1 ∧ (Atoi s).1 < 2 ^ 63 := by
  unfold Atoi
  cases s.data with
  | nil => simp
  | cons c cs =>
    simp only
    split_ifs
    · exact parseSigned_range false cs
    · exact parseSigned_range true cs
    · exact parseSigned_range false (c :: cs)

theorem effectivePage_lt (r : Request) : effectivePage r < 2 ^ 63 := by
  unfold effectivePage
  have h := (Atoi_range r.page).2
  by_cases hlt : (Atoi r.page).1 < 1
  · simp [hlt]
  · simp only [hlt, if_false]; exact h

theorem effectivePageSize_lt (r : Request) : effectivePageSize r < 2 ^ 63 := by
  unfold effectivePageSize
  have h := (Atoi_range r.pageSize).2
  by_cases hlt : (Atoi r.pageSize).1 < 1
  · simp [hlt]
  · simp only [hlt, if_false]; exact h

/-! ## Listing: the loops as list functions -/

theorem foldl_append_singleton {α β : Type} (f : α → β) (l : List α) (acc : List β) :
    l.foldl (fun users e => users ++ [f e]) acc = acc ++ l.map f := by
  induction l generalizing acc with
  | nil => simp
  | cons a t ih => simp [ih]

theorem Storage.ListUsers_eq_map (s : Storage) (it : MapIter) :
    s.ListUsers it = (it.order s.users.entries).map (fun e => e.2) := by
  simp [Storage.ListUsers, foldl_append_singleton]

theorem filterUsers_loop (c : String) (users : List User) (acc : Slice) :
    users.foldl
      (fun filteredUsers u =>
        if c ≠ "" ∧ u.Country ≠ c then filteredUsers else filteredUsers.append u) acc
      = match users.filter (keeps c) with
        | [] => acc
        | v :: t => Slice.of (acc.elems ++ v :: t) := by
  induction users generalizing acc with
  | nil => rfl
  | cons u t ih =>
    rw [List.foldl_cons, ih]
    by_cases h : c ≠ "" ∧ u.Country ≠ c
    · have hk : keeps c u = false := by
        simp only [keeps, decide_eq_false_iff_not, not_or]
        exact h
      rw [if_pos h, List.filter_cons_of_neg (by simp [hk])]
    · have hk : keeps c u = true := by
        simp only [keeps, decide_eq_true_eq]
        by_cases h1 : c = ""
        · exact Or.inl h1
        · by_cases h2 : u.Country = c
          · exact Or.inr h2
          · exact absurd ⟨h1, h2⟩ h
      rw [if_neg h, List.filter_cons_of_pos hk]
      cases List.filter (keeps c) t <;> simp [Slice.append, Slice.elems]

/-- The loop leaves `filteredUsers` nil when no record passes the filter, and
otherwise makes it the slice of the records that pass, in their order. -/
theorem filterUsers_eq (c : String) (users : List User) :
    filterUsers c users =
      match users.filter (keeps c) with
      | [] => Slice.nil
      | v :: t => Slice.of (v :: t) := by
  unfold filterUsers
  rw [filterUsers_loop]
  cases List.filter (keeps c) users <;> simp [Slice.elems]

theorem filterUsers_eq_filter (c : String) (users : List User) :
    (filterUsers c users).elems = users.filter (keeps c) := by
  rw [filterUsers_eq]
  cases List.filter (keeps c) users <;> rfl

/-! ## Listing: bounds -/

theorem wrapInt_of_range (x : Int) (h1 : -2 ^ 63 ≤ x) (h2 : x < 2 ^ 63) : wrapInt x = x := by
  unfold wrapInt; omega

theorem effectivePage_pos (r : Request) : 1 ≤ effectivePage r := by
  unfold effectivePage
  by_cases h : (Atoi r.page).1 < 1
  · simp [h]
  · simp only [h, if_false]; omega

theorem effectivePageSize_pos (r : Request) : 1 ≤ effectivePageSize r := by
  unfold effectivePageSize
  by_cases h : (Atoi r.pageSize).1 < 1
  · simp [h]
  · simp only [h, if_false]; omega

/-- Without overflow the bounds are those of the arithmetic, cut at the length. -/
theorem pageBounds_in_range (page pageSize : Int) (len : Nat)
    (hp : 1 ≤ page) (hs : 1 ≤ pageSize) (hr : (page - 1) * pageSize + pageSize < 2 ^ 63) :
    pageBounds page pageSize len
      = (min ((page - 1) * pageSize) len, min ((page - 1) * pageSize + pageSize) len) := by
  have h0 : 0 ≤ (page - 1) * pageSize := Int.mul_nonneg (by omega) (by omega)
  have hw1 : wrapInt ((page - 1) * pageSize) = (page - 1) * pageSize :=
    wrapInt_of_range _ (by omega) (by omega)
  have hw2 : wrapInt ((page - 1) * pageSize + pageSize) = (page - 1) * pageSize + pageSize :=
    wrapInt_of_range _ (by omega) hr
  simp only [pageBounds, rawBounds, hw1, hw2]
  generalize (page - 1) * pageSize = a at *
  congr 1
  · by_cases h : a > (len : Int)
    · simp only [h, if_true]; omega
    · simp only [h, if_false]; omega
  · by_cases h : a + pageSize > (len : Int)
    · simp only [h, if_true]; omega
    · simp only [h, if_false]; omega

theorem sliceExpr_of_bounds (l : List User) (lo hi : Int)
    (h0 : 0 ≤ lo) (h1 : lo ≤ hi) (h2 : hi ≤ (l.length : Int)) :
    sliceExpr l lo hi = some ((l.take hi.toNat).drop lo.toNat) := by
  simp [sliceExpr, h0, h1, h2]

theorem sliceExpr_of_neg (l : List User) (lo hi : Int) (h : lo < 0) : sliceExpr l lo hi = none := by
  have : ¬ (0 ≤ lo) := by omega
  simp [sliceExpr, this]

/-- What `listUsers` computes from the listing, with the loop replaced by
`filter` and the window taken by the slice expression: the body is `null` when
no record passes the filter and the array of the window otherwise. -/
theorem listUsersOf_eq (users : List User) (r : Request) :
    listUsersOf users r =
      (sliceExpr (users.filter (keeps r.country))
        (pageBounds (effectivePage r) (effectivePageSize r) (users.filter (keeps r.country)).length).1
        (pageBounds (effectivePage r) (effectivePageSize r) (users.filter (keeps r.country)).length).2).map
        (fun w => (⟨StatusOK, windowBody (users.filter (keeps r.country)) w⟩ : Response)) := by
  unfold listUsersOf
  simp only [filterUsers_eq]
  cases hF : users.filter (keeps r.country) with
  | nil =>
    simp only [Slice.len, Slice.elems, Slice.slice]
    cases sliceExpr ([] : List User)
      (pageBounds (effectivePage r) (effectivePageSize r) ([] : List User).length).1
      (pageBounds (effectivePage r) (effectivePageSize r) ([] : List User).length).2 <;> rfl
  | cons v t =>
    simp only [Slice.len, Slice.elems, Slice.slice]
    cases sliceExpr (v :: t)
      (pageBounds (effectivePage r) (effectivePageSize r) (v :: t).length).1
      (pageBounds (effectivePage r) (effectivePageSize r) (v :: t).length).2 <;> rfl

/-- Without overflow the handler answers 200 with the window of the filtered list. -/
theorem listUsersOf_in_range (users : List User) (r : Request)
    (hr : (effectivePage r - 1) * effectivePageSize r + effectivePageSize r < 2 ^ 63) :
    listUsersOf users r = some ⟨StatusOK, windowBody (users.filter (keeps r.country))
      (((users.filter (keeps r.country)).take
          (min ((effectivePage r - 1) * effectivePageSize r + effectivePageSize r)
            ((users.filter (keeps r.country)).length : Int)).toNat).drop
        (min ((effectivePage r - 1) * effectivePageSize r)
            ((users.filter (keeps r.country)).length : Int)).toNat)⟩ := by
  have hp := effectivePage_pos r
  have hs := effectivePageSize_pos r
  have h0 : 0 ≤ (effectivePage r - 1) * effectivePageSize r := Int.mul_nonneg (by omega) (by omega)
  rw [listUsersOf_eq, pageBounds_in_range _ _ _ hp hs hr]
  simp only
  rw [sliceExpr_of_bounds _ _ _ (by omega) (by omega) (by omega)]
  rfl

theorem windowBody_of_ne_nil (filtered w : List User) (h : filtered ≠ []) :
    windowBody filtered w = Body.users w := by
  cases filtered with
  | nil => exact absurd rfl h
  | cons v t => rfl

theorem windowBody_nil (w : List User) : windowBody [] w = Body.null := rfl

theorem records_windowBody_sublist (filtered w : List User) :
    (windowBody filtered w).records.Sublist w := by
  cases filtered with
  | nil => exact List.nil_sublist w
  | cons v t => exact List.Sublist.refl w

/-! ## Update -/

theorem updateUser_found (env : Env) (s : Storage) (r : Request) (id : String) (u0 B : User)
    (hX : s.GetUser id = (u0, true)) (hb : r.Body = some B) :
    updateUser env s r id =
      (some ⟨StatusOK, Body.user { B with ID := u0.ID, CreatedAt := u0.CreatedAt, UpdatedAt := env.now1 }⟩,
       s.UpdateUser { B with ID := u0.ID, CreatedAt := u0.CreatedAt, UpdatedAt := env.now1 }) := by
  simp [updateUser, hb, hX]

theorem specificUserHandler_put (env : Env) (s : Storage) (r : Request) (X : String)
    (hne : X ≠ "") (hslash : X ≠ "/") (hm : r.Method = MethodPut) (hp : r.Path = "/users/" ++ X) :
    specificUserHandler env s r = updateUser env s r X := by
  simp [specificUserHandler, hp, TrimPrefix_append, hne, hslash, hm]

theorem specificUserHandler_delete (env : Env) (s : Storage) (r : Request) (X : String)
    (hne : X ≠ "") (hslash : X ≠ "/") (hm : r.Method = MethodDelete) (hp : r.Path = "/users/" ++ X) :
    specificUserHandler env s r = deleteUser s X := by
  have hpd : MethodDelete ≠ MethodPut := by decide
  simp [specificUserHandler, hp, TrimPrefix_append, hne, hslash, hm, hpd]

/-- C1, as stated, fails: in the reachable store that holds a record under the
empty ID, `PUT /users/` with a decodable body is answered 400 ("User ID required"),
not 200. -/
theorem update_identity_counterexample :
    Storage.Reachable Example.storeNameless ∧
    Example.storeNameless.GetUser "" = (Example.nameless, true) ∧
    (specificUserHandler Example.env Example.storeNameless (Example.put "" Example.payload)).1
      = some (httpError "User ID required" StatusBadRequest) ∧
    (specificUserHandler Example.env Example.storeNameless (Example.put "" Example.payload)).2
      = Example.storeNameless :=
  ⟨Storage.Reachable.add _ _ Storage.Reachable.new, by decide, by decide, by rfl⟩

/-- C1 (amended): for every reachable store, every id X present in it other than
the empty string and "/", with stored record u0, and every decodable body B,
`PUT /users/X` answers 200 with B where ID is X, CreatedAt is that of u0 and
UpdatedAt is the clock reading; that record is what the store holds under X
afterwards. -/
theorem update_preserves_identity (env : Env) (s : Storage) (r : Request) (X : String) (u0 B : User)
    (hs : Storage.Reachable s) (hX : s.GetUser X = (u0, true))
    (hne : X ≠ "") (hslash : X ≠ "/")
    (hm : r.Method = MethodPut) (hp : r.Path = "/users/" ++ X) (hb : r.Body = some B) :
    (specificUserHandler env s r).1
      = some ⟨StatusOK, Body.user { B with ID := X, CreatedAt := u0.CreatedAt, UpdatedAt := env.now1 }⟩ ∧
    (specificUserHandler env s r).2.GetUser X
      = ({ B with ID := X, CreatedAt := u0.CreatedAt, UpdatedAt := env.now1 }, true) := by
  have hid : u0.ID = X := hs.ID_eq_key X u0 (Storage.lookup_of_GetUser_true hX)
  rw [specificUserHandler_put env s r X hne hslash hm hp, updateUser_found env s r X u0 B hX hb, hid]
  refine ⟨rfl, ?_⟩
  exact Storage.GetUser_of_lookup_some
    (Storage.lookup_AddUser_self s { B with ID := X, CreatedAt := u0.CreatedAt, UpdatedAt := env.now1 })

theorem update_preserves_identity_witness :
    (specificUserHandler Example.env Example.storeAB (Example.put "1" Example.payload)).1
      = some ⟨200, Body.user { Example.payload with ID := "1", CreatedAt := 5, UpdatedAt := 10 }⟩ ∧
    (specificUserHandler Example.env Example.storeAB (Example.put "1" Example.payload)).2.GetUser "1"
      = ({ Example.payload with ID := "1", CreatedAt := 5, UpdatedAt := 10 }, true) :=
  update_preserves_identity Example.env Example.storeAB (Example.put "1" Example.payload) "1"
    Example.alice Example.payload
    (Storage.Reachable.add _ _ (Storage.Reachable.add _ _ Storage.Reachable.new))
    (by decide) (by decide) (by decide) rfl rfl rfl

/-! ## Failures leave the store alone -/

theorem listUsers_store (env : Env) (s : Storage) (r : Request) : (listUsers env s r).2 = s := rfl

theorem addUser_undecodable (env : Env) (s : Storage) (r : Request) (hb : r.Body = none) :
    addUser env s r = (some (httpError "Invalid input" StatusBadRequest), s) := by
  simp [addUser, hb]

theorem addUser_decodable (env : Env) (s : Storage) (r : Request) (P : User) (hb : r.Body = some P) :
    addUser env s r =
      (some ⟨StatusCreated,
          Body.user { P with ID := env.generateID, CreatedAt := env.now1, UpdatedAt := env.now2 }⟩,
       s.AddUser { P with ID := env.generateID, CreatedAt := env.now1, UpdatedAt := env.now2 }) := by
  simp [addUser, hb]

theorem updateUser_failure (env : Env) (s : Storage) (r : Request) (id : String) (resp : Response)
    (h : (updateUser env s r id).1 = some resp) (hst : resp.status ≠ StatusOK) :
    (updateUser env s r id).2 = s := by
  unfold updateUser at h ⊢
  cases hb : r.Body with
  | none => rfl
  | some u =>
    cases hx : (s.GetUser id).2 with
    | false => simp [hx]
    | true =>
      simp only [hb, hx] at h
      simp at h
      rw [← h] at hst
      exact absurd rfl hst

theorem deleteUser_failure (s : Storage) (id : String) (resp : Response)
    (h : (deleteUser s id).1 = some resp) (hst : resp.status ≠ StatusNoContent) :
    (deleteUser s id).2 = s := by
  unfold deleteUser at h ⊢
  cases hx : (s.GetUser id).2 with
  | false => simp [hx]
  | true =>
    simp only [hx] at h
    simp at h
    rw [← h] at hst
    exact absurd rfl hst

/-- C5: whenever either handler answers 400, 404 or 405, the store after the
request is the store before it; and `POST /users` whose body does not decode
is answered 400 "Invalid input" with the store as it was. -/
theorem failures_atomic (env : Env) (s : Storage) (r : Request) (resp : Response)
    (hst : resp.status = 400 ∨ resp.status = 404 ∨ resp.status = 405) :
    ((usersCollectionHandler env s r).1 = some resp → (usersCollectionHandler env s r).2 = s) ∧
    ((specificUserHandler env s r).1 = some resp → (specificUserHandler env s r).2 = s) ∧
    (r.Method = MethodPost → r.Body = none →
      usersCollectionHandler env s r = (some (httpError "Invalid input" StatusBadRequest), s)) := by
  have h200 : resp.status ≠ StatusOK := by
    rcases hst with h | h | h <;> rw [h] <;> decide
  have h201 : resp.status ≠ StatusCreated := by
    rcases hst with h | h | h <;> rw [h] <;> decide
  have h204 : resp.status ≠ StatusNoContent := by
    rcases hst with h | h | h <;> rw [h] <;> decide
  refine ⟨?_, ?_, ?_⟩
  · intro h
    unfold usersCollectionHandler at h ⊢
    by_cases hg : r.Method = MethodGet
    · simp only [hg, if_true]
      rfl
    · simp only [hg, if_false] at h ⊢
      by_cases hp : r.Method = MethodPost
      · simp only [hp, if_true] at h ⊢
        cases hb : r.Body with
        | none => rw [addUser_undecodable env s r hb]
        | some P =>
          rw [addUser_decodable env s r P hb] at h
          simp at h
          rw [← h] at h201
          exact absurd rfl h201
      · simp only [hp, if_false]
  · intro h
    unfold specificUserHandler at h ⊢
    by_cases hid : TrimPrefix r.Path "/users/" = "" ∨ TrimPrefix r.Path "/users/" = "/"
    · simp only [hid, if_true]
    · simp only [hid, if_false] at h ⊢
      by_cases hp : r.Method = MethodPut
      · simp only [hp, if_true] at h ⊢
        exact updateUser_failure env s r _ resp h h200
      · simp only [hp, if_false] at h ⊢
        by_cases hd : r.Method = MethodDelete
        · simp only [hd, if_true] at h ⊢
          exact deleteUser_failure s _ resp h h204
        · simp only [hd, if_false]
  · intro hm hb
    have hpg : MethodPost ≠ MethodGet := by decide
    simp [usersCollectionHandler, hm, hpg, addUser_undecodable env s r hb]

theorem failures_atomic_witness :
    (usersCollectionHandler Example.env Example.storeAB (Example.post none)).2 = Example.storeAB ∧
    (specificUserHandler Example.env Example.storeAB (Example.delete "9")).2 = Example.storeAB ∧
    usersCollectionHandler Example.env Example.storeAB (Example.post none)
      = (some (httpError "Invalid input" StatusBadRequest), Example.storeAB) :=
  ⟨(failures_atomic Example.env Example.storeAB (Example.post none)
      (httpError "Invalid input" 400) (Or.inl rfl)).1 (by decide),
   (failures_atomic Example.env Example.storeAB (Example.delete "9")
      (httpError "User not found" 404) (Or.inr (Or.inl rfl))).2.1 (by decide),
   (failures_atomic Example.env Example.storeAB (Example.post none)
      (httpError "Invalid input" 400) (Or.inl rfl)).2.2 rfl rfl⟩

/-! ## Delete -/

theorem deleteUser_absent (s : Storage) (id : String) (h : (s.GetUser id).2 = false) :
    deleteUser s id = (some (httpError "User not found" StatusNotFound), s) := by
  simp [deleteUser, h]

theorem deleteUser_present (s : Storage) (id : String) (h : (s.GetUser id).2 = true) :
    deleteUser s id = (some ⟨StatusNoContent, Body.empty⟩, s.DeleteUser id) := by
  simp [deleteUser, h]

/-- C6, as stated, fails: with the id empty, `DELETE /users/` on the empty store,
where that id is absent, is answered 400 ("User ID required"), not 404; and on
the store that holds a record under the empty id it is answered 400, not 204,
and the record stays. -/
theorem delete_semantics_counterexample :
    (Storage.New.GetUser "").2 = false ∧
    (specificUserHandler Example.env Storage.New (Example.delete "")).1
      = some (httpError "User ID required" StatusBadRequest) ∧
    (Example.storeNameless.GetUser "").2 = true ∧
    (specificUserHandler Example.env Example.storeNameless (Example.delete "")).1
      = some (httpError "User ID required" StatusBadRequest) ∧
    ((specificUserHandler Example.env Example.storeNameless (Example.delete "")).2.GetUser "").2 = true :=
  ⟨by decide, by decide, by decide, by decide, by decide⟩

/-- C6 (amended): for every store and every id other than the empty string and
"/": when the id is absent `DELETE /users/{id}` answers 404 and the store stays
as it was (so every repetition answers 404 again); when the id is present it
answers 204, afterwards GetUser(id) reports not found, GetUser of every other
id returns what it returned before, and a second DELETE of the same id answers
404 and changes nothing. -/
theorem delete_semantics (env : Env) (s : Storage) (r : Request) (id : String)
    (hne : id ≠ "") (hslash : id ≠ "/")
    (hm : r.Method = MethodDelete) (hp : r.Path = "/users/" ++ id) :
    ((s.GetUser id).2 = false →
      specificUserHandler env s r = (some (httpError "User not found" StatusNotFound), s)) ∧
    ((s.GetUser id).2 = true →
      (specificUserHandler env s r).1 = some ⟨StatusNoContent, Body.empty⟩ ∧
      (specificUserHandler env s r).2.GetUser id = (User.zero, false) ∧
      (∀ j : String, j ≠ id → (specificUserHandler env s r).2.GetUser j = s.GetUser j) ∧
      specificUserHandler env (specificUserHandler env s r).2 r
        = (some (httpError "User not found" StatusNotFound), (specificUserHandler env s r).2)) := by
  have hroute : ∀ t : Storage, specificUserHandler env t r = deleteUser t id :=
    fun t => specificUserHandler_delete env t r id hne hslash hm hp
  refine ⟨?_, ?_⟩
  · intro h
    rw [hroute, deleteUser_absent s id h]
  · intro h
    have hgone : (s.DeleteUser id).GetUser id = (User.zero, false) :=
      Storage.GetUser_of_lookup_none (Storage.lookup_DeleteUser_self s id)
    rw [hroute s, deleteUser_present s id h]
    refine ⟨rfl, hgone, ?_, ?_⟩
    · intro j hj
      exact Storage.GetUser_congr (Storage.lookup_DeleteUser_ne s id hj)
    · rw [hroute, deleteUser_absent _ id (by rw [hgone])]

theorem delete_semantics_witness :
    specificUserHandler Example.env Example.storeAB (Example.delete "9")
      = (some (httpError "User not found" StatusNotFound), Example.storeAB) ∧
    (specificUserHandler Example.env Example.storeAB (Example.delete "1")).1
      = some ⟨StatusNoContent, Body.empty⟩ ∧
    (specificUserHandler Example.env Example.storeAB (Example.delete "1")).2.GetUser "1"
      = (User.zero, false) :=
  ⟨(delete_semantics Example.env Example.storeAB (Example.delete "9") "9"
      (by decide) (by decide) rfl rfl).1 (by decide),
   ((delete_semantics Example.env Example.storeAB (Example.delete "1") "1"
      (by decide) (by decide) rfl rfl).2 (by decide)).1,
   ((delete_semantics Example.env Example.storeAB (Example.delete "1") "1"
      (by decide) (by decide) rfl rfl).2 (by decide)).2.1⟩

/-! ## Create -/

theorem usersCollectionHandler_post (env : Env) (s : Storage) (r : Request) (P : User)
    (hm : r.Method = MethodPost) (hb : r.Body = some P) :
    usersCollectionHandler env s r =
      (some ⟨StatusCreated,
          Body.user { P with ID := env.generateID, CreatedAt := env.now1, UpdatedAt := env.now2 }⟩,
       s.AddUser { P with ID := env.generateID, CreatedAt := env.now1, UpdatedAt := env.now2 }) := by
  have hpg : MethodPost ≠ MethodGet := by decide
  have hroute : usersCollectionHandler env s r = addUser env s r := by
    simp [usersCollectionHandler, hm, hpg]
  rw [hroute, addUser_decodable env s r P hb]

/-- C7: for every store, every decodable body P, generated id g and clock
readings t1 and t2, `POST /users` answers 201 with P where ID is g, CreatedAt
is t1 (the reading taken for it) and UpdatedAt is t2 (the reading taken next);
afterwards GetUser(g) returns exactly that record and GetUser of every other
id returns what it returned before. -/
theorem create_assigns_and_stores (env : Env) (s : Storage) (r : Request) (P : User)
    (hm : r.Method = MethodPost) (hb : r.Body = some P) :
    (usersCollectionHandler env s r).1
      = some ⟨StatusCreated,
          Body.user { P with ID := env.generateID, CreatedAt := env.now1, UpdatedAt := env.now2 }⟩ ∧
    (usersCollectionHandler env s r).2.GetUser env.generateID
      = ({ P with ID := env.generateID, CreatedAt := env.now1, UpdatedAt := env.now2 }, true) ∧
    (∀ j : String, j ≠ env.generateID →
      (usersCollectionHandler env s r).2.GetUser j = s.GetUser j) := by
  rw [usersCollectionHandler_post env s r P hm hb]
  refine ⟨rfl, ?_, ?_⟩
  · exact Storage.GetUser_of_lookup_some (Storage.lookup_AddUser_self s _)
  · intro j hj
    exact Storage.GetUser_congr (Storage.lookup_AddUser_ne s _ hj)

theorem create_assigns_and_stores_witness :
    (usersCollectionHandler Example.env Example.storeAB (Example.post (some Example.payload))).1
      = some ⟨201, Body.user { Example.payload with ID := "id-3", CreatedAt := 10, UpdatedAt := 11 }⟩ ∧
    (usersCollectionHandler Example.env Example.storeAB
        (Example.post (some Example.payload))).2.GetUser "id-3"
      = ({ Example.payload with ID := "id-3", CreatedAt := 10, UpdatedAt := 11 }, true) ∧
    (∀ j : String, j ≠ "id-3" →
      (usersCollectionHandler Example.env Example.storeAB
        (Example.post (some Example.payload))).2.GetUser j = Example.storeAB.GetUser j) :=
  create_assigns_and_stores Example.env Example.storeAB (Example.post (some Example.payload))
    Example.payload rfl rfl

/-! ## Update overwrites one record -/

theorem specificUserHandler_missing_id (env : Env) (s : Storage) (r : Request) (X : String)
    (hX : X = "" ∨ X = "/") (hp : r.Path = "/users/" ++ X) :
    specificUserHandler env s r = (some (httpError "User ID required" StatusBadRequest), s) := by
  simp [specificUserHandler, hp, TrimPrefix_append, hX]

/-- C9: for every reachable store, id X present in it and decodable body B, when
`PUT /users/X` succeeds (200) the record stored under X afterwards has the
FirstName, LastName, Nickname, Password, Email and Country of B, its UpdatedAt
is the clock reading, and GetUser of every id other than X returns what it
returned before, the id carried in B included. -/
theorem put_overwrites_one_record (env : Env) (s : Storage) (r : Request) (X : String) (u0 B : User)
    (hs : Storage.Reachable s) (hX : s.GetUser X = (u0, true))
    (hm : r.Method = MethodPut) (hp : r.Path = "/users/" ++ X) (hb : r.Body = some B)
    (hok : ∃ b : Body, (specificUserHandler env s r).1 = some ⟨StatusOK, b⟩) :
    (∃ rec : User, (specificUserHandler env s r).2.GetUser X = (rec, true) ∧
      rec.FirstName = B.FirstName ∧ rec.LastName = B.LastName ∧ rec.Nickname = B.Nickname ∧
      rec.Password = B.Password ∧ rec.Email = B.Email ∧ rec.Country = B.Country ∧
      rec.UpdatedAt = env.now1) ∧
    (∀ j : String, j ≠ X → (specificUserHandler env s r).2.GetUser j = s.GetUser j) ∧
    (B.ID ≠ X → (specificUserHandler env s r).2.GetUser B.ID = s.GetUser B.ID) := by
  have hreq : X ≠ "" ∧ X ≠ "/" := by
    by_contra hcon
    have hX' : X = "" ∨ X = "/" := by
      by_cases h1 : X = ""
      · exact Or.inl h1
      · by_cases h2 : X = "/"
        · exact Or.inr h2
        · exact absurd ⟨h1, h2⟩ hcon
    obtain ⟨b, hb'⟩ := hok
    rw [specificUserHandler_missing_id env s r X hX' hp] at hb'
    simp [httpError, StatusBadRequest, StatusOK] at hb'
  have hid : u0.ID = X := hs.ID_eq_key X u0 (Storage.lookup_of_GetUser_true hX)
  have hothers : ∀ j : String, j ≠ X →
      (s.UpdateUser { B with ID := X, CreatedAt := u0.CreatedAt, UpdatedAt := env.now1 }).GetUser j
        = s.GetUser j := by
    intro j hj
    exact Storage.GetUser_congr (Storage.lookup_AddUser_ne s _ hj)
  rw [specificUserHandler_put env s r X hreq.1 hreq.2 hm hp, updateUser_found env s r X u0 B hX hb, hid]
  refine ⟨⟨{ B with ID := X, CreatedAt := u0.CreatedAt, UpdatedAt := env.now1 }, ?_,
    rfl, rfl, rfl, rfl, rfl, rfl, rfl⟩, hothers, hothers B.ID⟩
  exact Storage.GetUser_of_lookup_some (Storage.lookup_AddUser_self s _)

theorem put_overwrites_one_record_witness :
    (∃ rec : User,
      (specificUserHandler Example.env Example.storeAB (Example.put "1" Example.payload)).2.GetUser "1"
        = (rec, true) ∧
      rec.FirstName = "AliceUpdated" ∧ rec.LastName = "Smith" ∧ rec.Nickname = "AS123" ∧
      rec.Password = "newpassword" ∧ rec.Email = "alice.updated@example.com" ∧ rec.Country = "US" ∧
      rec.UpdatedAt = 10) ∧
    (∀ j : String, j ≠ "1" →
      (specificUserHandler Example.env Example.storeAB (Example.put "1" Example.payload)).2.GetUser j
        = Example.storeAB.GetUser j) ∧
    ("2" ≠ "1" →
      (specificUserHandler Example.env Example.storeAB (Example.put "1" Example.payload)).2.GetUser "2"
        = Example.storeAB.GetUser "2") :=
  put_overwrites_one_record Example.env Example.storeAB (Example.put "1" Example.payload) "1"
    Example.alice Example.payload
    (Storage.Reachable.add _ _ (Storage.Reachable.add _ _ Storage.Reachable.new))
    (by decide) rfl rfl rfl
    ⟨Body.user { Example.payload with ID := "1", CreatedAt := 5, UpdatedAt := 10 }, by decide⟩

/-! ## Add and Update on the store -/

/-- C10: AddUser(u) and UpdateUser(u) yield the same store, whatever the store
held; in it GetUser(u.ID) returns (u, true) and GetUser(j) for every other j
returns what it returned before. GetUser is a function of the store alone and
yields no new store. -/
theorem add_update_same_upsert (s : Storage) (u : User) :
    s.AddUser u = s.UpdateUser u ∧
    (s.AddUser u).GetUser u.ID = (u, true) ∧
    (s.UpdateUser u).GetUser u.ID = (u, true) ∧
    (∀ j : String, j ≠ u.ID → (s.AddUser u).GetUser j = s.GetUser j) ∧
    (∀ j : String, j ≠ u.ID → (s.UpdateUser u).GetUser j = s.GetUser j) :=
  ⟨rfl,
   Storage.GetUser_of_lookup_some (Storage.lookup_AddUser_self s u),
   Storage.GetUser_of_lookup_some (Storage.lookup_AddUser_self s u),
   fun _ hj => Storage.GetUser_congr (Storage.lookup_AddUser_ne s u hj),
   fun _ hj => Storage.GetUser_congr (Storage.lookup_AddUser_ne s u hj)⟩

theorem add_update_same_upsert_witness :
    Example.storeAB.AddUser Example.payload = Example.storeAB.UpdateUser Example.payload ∧
    (Example.storeAB.AddUser Example.payload).GetUser "2" = (Example.payload, true) ∧
    (Example.storeAB.AddUser Example.payload).GetUser "1" = Example.storeAB.GetUser "1" ∧
    (Example.storeAB.UpdateUser Example.payload).GetUser "7" = Example.storeAB.GetUser "7" :=
  ⟨(add_update_same_upsert Example.storeAB Example.payload).1,
   (add_update_same_upsert Example.storeAB Example.payload).2.1,
   (add_update_same_upsert Example.storeAB Example.payload).2.2.2.1 "1" (by decide),
   (add_update_same_upsert Example.storeAB Example.payload).2.2.2.2 "7" (by decide)⟩

/-! ## Listing: what the store hands over -/

theorem Storage.mem_ListUsers (s : Storage) (it : MapIter) (u : User) :
    u ∈ s.ListUsers it ↔ ∃ k : String, s.users.lookup k = some u := by
  rw [Storage.ListUsers_eq_map, List.mem_map]
  constructor
  · rintro ⟨e, he, rfl⟩
    have he' : e ∈ s.users.entries := (it.perm _).mem_iff.mp he
    exact ⟨e.1, Option.mem_def.mp (AList.mem_lookup_iff.mpr he')⟩
  · rintro ⟨k, hk⟩
    have he : (⟨k, u⟩ : Sigma (fun _ : String => User)) ∈ s.users.entries :=
      AList.mem_lookup_iff.mp (Option.mem_def.mpr hk)
    exact ⟨⟨k, u⟩, (it.perm _).mem_iff.mpr he, rfl⟩

theorem Storage.length_ListUsers (s : Storage) (it : MapIter) :
    (s.ListUsers it).length = s.users.entries.length := by
  rw [Storage.ListUsers_eq_map, List.length_map, (it.perm _).length_eq]

theorem usersCollectionHandler_get (env : Env) (s : Storage) (r : Request) (hm : r.Method = MethodGet) :
    usersCollectionHandler env s r = (listUsersOf (s.ListUsers env.iter) r, s) := by
  simp [usersCollectionHandler, hm, listUsers]

theorem keeps_no_filter (users : List User) : users.filter (keeps "") = users := by
  apply List.filter_eq_self.mpr
  intro u _
  simp [keeps]

/-- Pagination without overflow: with no country filter and `page * pageSize`
below `2 ^ 63`, the number of records in the window is `min(s, N - (p-1)*s)`
when `(p-1)*s < N` and 0 otherwise, `N` being the number of records in the
store; the body is the array of the window, or `null` when the store is empty. -/
theorem pagination_length_in_range (env : Env) (s : Storage) (r : Request)
    (hm : r.Method = MethodGet) (hc : r.country = "")
    (hr : (effectivePage r - 1) * effectivePageSize r + effectivePageSize r < 2 ^ 63) :
    ∃ w : List User,
      (usersCollectionHandler env s r).1
        = some ⟨StatusOK, windowBody (s.ListUsers env.iter) w⟩ ∧
      (w.length : Int) =
        if (effectivePage r - 1) * effectivePageSize r < (s.users.entries.length : Int) then
          min (effectivePageSize r)
            ((s.users.entries.length : Int) - (effectivePage r - 1) * effectivePageSize r)
        else 0 := by
  have hp := effectivePage_pos r
  have hs := effectivePageSize_pos r
  have h0 : 0 ≤ (effectivePage r - 1) * effectivePageSize r := Int.mul_nonneg (by omega) (by omega)
  rw [usersCollectionHandler_get env s r hm, listUsersOf_in_range _ r hr, hc, keeps_no_filter]
  refine ⟨_, rfl, ?_⟩
  rw [List.length_drop, List.length_take, Storage.length_ListUsers]
  generalize (effectivePage r - 1) * effectivePageSize r = a at *
  generalize effectivePageSize r = b at *
  generalize s.users.entries.length = n at *
  split_ifs with h <;> omega

theorem pagination_length_in_range_witness :
    ∃ w : List User,
      (usersCollectionHandler Example.env Example.storeAB (Example.get "2" "1" "")).1
        = some ⟨StatusOK, windowBody (Example.storeAB.ListUsers Example.env.iter) w⟩ ∧
      (w.length : Int) = 1 :=
  pagination_length_in_range Example.env Example.storeAB (Example.get "2" "1" "") rfl rfl (by decide)

theorem storeA_ListUsers (it : MapIter) : Example.storeA.ListUsers it = [Example.alice] := by
  rw [Storage.ListUsers_eq_map]
  have hperm := it.perm Example.storeA.users.entries
  have hent : Example.storeA.users.entries = [⟨"1", Example.alice⟩] := rfl
  rw [hent] at hperm
  rw [hent, List.perm_singleton.mp hperm]
  rfl

/-- C2 fails on the code at a page whose offset overflows `int`: on the store that
holds one record, `GET /users?page=4611686018427387905&pageSize=4` computes
`start = 2^62 * 4`, which wraps to 0, and answers the record, although
`(p-1)*s = 2^64` is not below `N = 1` and the claim puts the count at 0. -/
theorem pagination_wraps_to_first_page (env : Env) :
    effectivePage (Example.get "4611686018427387905" "4" "") = 4611686018427387905 ∧
    effectivePageSize (Example.get "4611686018427387905" "4" "") = 4 ∧
    Example.storeA.users.entries.length = 1 ∧
    ¬ ((4611686018427387905 - 1) * 4 < (1 : Int)) ∧
    rawBounds 4611686018427387905 4 = (0, 4) ∧
    (usersCollectionHandler env Example.storeA (Example.get "4611686018427387905" "4" "")).1
      = some ⟨StatusOK, Body.users [Example.alice]⟩ := by
  refine ⟨rfl, rfl, rfl, by decide, rfl, ?_⟩
  rw [usersCollectionHandler_get env _ _ rfl, storeA_ListUsers env.iter]
  rfl

/-- The scenario of the specification: one record in the store, and
`GET /users?page=2&pageSize=10` answers 200 with an empty array (a slice that
is not nil and has no element), whatever the iteration order. -/
theorem listing_page_beyond_data (env : Env) :
    (usersCollectionHandler env Example.storeA (Example.get "2" "10" "")).1
      = some ⟨StatusOK, Body.users []⟩ := by
  rw [usersCollectionHandler_get env _ _ rfl, storeA_ListUsers env.iter]
  rfl

/-- C3 fails on the code: for every store and every country filter,
`GET /users?page=9223372036854775807` (pageSize absent, so 10) computes
`start = (2^63 - 2) * 10`, which wraps to -20, and `end = -10`; neither clamp
applies, the slice expression is out of range and the handler ends in a
run-time panic instead of answering 200. -/
theorem listing_panics_on_huge_page (env : Env) (s : Storage) (c : String) :
    effectivePage (Example.get "9223372036854775807" "" c) = 9223372036854775807 ∧
    effectivePageSize (Example.get "9223372036854775807" "" c) = 10 ∧
    (∀ len : Nat, pageBounds 9223372036854775807 10 len = (-20, -10)) ∧
    (usersCollectionHandler env s (Example.get "9223372036854775807" "" c)).1 = none := by
  have hb : ∀ len : Nat, pageBounds 9223372036854775807 10 len = (-20, -10) := by
    intro len
    have hraw : rawBounds 9223372036854775807 10 = (-20, -10) := rfl
    have h1 : ¬ ((-20 : Int) > (len : Int)) := by omega
    have h2 : ¬ ((-10 : Int) > (len : Int)) := by omega
    simp only [pageBounds, hraw, h1, h2, if_false]
  have hp : effectivePage (Example.get "9223372036854775807" "" c) = 9223372036854775807 := rfl
  have hs : effectivePageSize (Example.get "9223372036854775807" "" c) = 10 := rfl
  refine ⟨hp, hs, hb, ?_⟩
  rw [usersCollectionHandler_get env s _ rfl, listUsersOf_eq, hp, hs, hb]
  simp only
  rw [sliceExpr_of_neg _ _ _ (by decide)]
  rfl

/-! ## Listing: the country filter -/

theorem sliceExpr_sublist (l w : List User) (lo hi : Int) (h : sliceExpr l lo hi = some w) :
    w.Sublist l := by
  unfold sliceExpr at h
  split_ifs at h
  injection h with h
  rw [← h]
  exact (List.drop_sublist _ _).trans (List.take_sublist _ _)

theorem keeps_country (c : String) (u : User) (hc : c ≠ "") (hk : keeps c u = true) :
    u.Country = c := by
  simp only [keeps, decide_eq_true_eq] at hk
  rcases hk with h | h
  · exact absurd h hc
  · exact h

/-- The country filter is exact and comes before pagination: what `GET /users`
answers is the window `[start:end]`, with the bounds the handler computes, of
the records of the listing that the filter keeps (the whole listing when the
filter is empty, else those whose Country is the very same string); it does
answer, with 200, whenever the bounds do not overflow. Hence with a filter c
every answered record has Country c and no record whose Country is another
string (a different letter case included) is answered. When no record of the
listing has Country c the body is `null`; when some has, it is an array. -/
theorem country_filter_exact (env : Env) (s : Storage) (r : Request) (hm : r.Method = MethodGet) :
    (usersCollectionHandler env s r).1 =
      (sliceExpr ((s.ListUsers env.iter).filter (keeps r.country))
        (pageBounds (effectivePage r) (effectivePageSize r)
          ((s.ListUsers env.iter).filter (keeps r.country)).length).1
        (pageBounds (effectivePage r) (effectivePageSize r)
          ((s.ListUsers env.iter).filter (keeps r.country)).length).2).map
        (fun w => (⟨StatusOK,
          windowBody ((s.ListUsers env.iter).filter (keeps r.country)) w⟩ : Response)) ∧
    (r.country = "" → (s.ListUsers env.iter).filter (keeps r.country) = s.ListUsers env.iter) ∧
    ((effectivePage r - 1) * effectivePageSize r + effectivePageSize r < 2 ^ 63 →
      ∃ b : Body, (usersCollectionHandler env s r).1 = some ⟨StatusOK, b⟩) ∧
    (∀ b : Body, (usersCollectionHandler env s r).1 = some ⟨StatusOK, b⟩ →
      b.records.Sublist ((s.ListUsers env.iter).filter (keeps r.country)) ∧
      (r.country ≠ "" → ∀ u ∈ b.records, u.Country = r.country) ∧
      (r.country ≠ "" → ∀ u : User, u.Country ≠ r.country → u ∉ b.records) ∧
      (r.country ≠ "" → (∀ u ∈ s.ListUsers env.iter, u.Country ≠ r.country) → b = Body.null) ∧
      ((s.ListUsers env.iter).filter (keeps r.country) ≠ [] → ∃ w : List User, b = Body.users w)) := by
  have hget := usersCollectionHandler_get env s r hm
  have heq := listUsersOf_eq (s.ListUsers env.iter) r
  refine ⟨by rw [hget, heq], ?_, ?_, ?_⟩
  · intro hc
    rw [hc, keeps_no_filter]
  · intro hr
    rw [hget, listUsersOf_in_range _ r hr]
    exact ⟨_, rfl⟩
  · intro b hb
    rw [hget, heq] at hb
    obtain ⟨v, hsl, hbv⟩ : ∃ v : List User,
        sliceExpr ((s.ListUsers env.iter).filter (keeps r.country))
          (pageBounds (effectivePage r) (effectivePageSize r)
            ((s.ListUsers env.iter).filter (keeps r.country)).length).1
          (pageBounds (effectivePage r) (effectivePageSize r)
            ((s.ListUsers env.iter).filter (keeps r.country)).length).2 = some v ∧
        b = windowBody ((s.ListUsers env.iter).filter (keeps r.country)) v := by
      cases hsl : sliceExpr ((s.ListUsers env.iter).filter (keeps r.country))
          (pageBounds (effectivePage r) (effectivePageSize r)
            ((s.ListUsers env.iter).filter (keeps r.country)).length).1
          (pageBounds (effectivePage r) (effectivePageSize r)
            ((s.ListUsers env.iter).filter (keeps r.country)).length).2 with
      | none => rw [hsl] at hb; simp at hb
      | some v =>
        rw [hsl] at hb
        simp only [Option.map_some', Option.some.injEq, Response.mk.injEq, true_and] at hb
        exact ⟨v, rfl, hb.symm⟩
    have hsub : b.records.Sublist ((s.ListUsers env.iter).filter (keeps r.country)) := by
      rw [hbv]
      exact (records_windowBody_sublist _ v).trans (sliceExpr_sublist _ _ _ _ hsl)
    have hall : r.country ≠ "" → ∀ u ∈ b.records, u.Country = r.country := by
      intro hc u hu
      have huF := hsub.subset hu
      exact keeps_country r.country u hc (List.mem_filter.mp huF).2
    refine ⟨hsub, hall, ?_, ?_, ?_⟩
    · intro hc u hne hu
      exact hne (hall hc u hu)
    · intro hc hnone
      have hF : (s.ListUsers env.iter).filter (keeps r.country) = [] := by
        apply List.eq_nil_iff_forall_not_mem.mpr
        intro u hu
        exact hnone u (List.mem_filter.mp hu).1
          (keeps_country r.country u hc (List.mem_filter.mp hu).2)
      rw [hbv, hF]
      rfl
    · intro hne
      exact ⟨v, by rw [hbv, windowBody_of_ne_nil _ v hne]⟩

theorem country_filter_exact_witness :
    (usersCollectionHandler Example.env Example.storeAB (Example.get "1" "10" "FR")).1
      = some ⟨200, Body.null⟩ ∧
    (usersCollectionHandler Example.env Example.storeAB (Example.get "1" "10" "UK")).1
      = some ⟨200, Body.users [Example.alice]⟩ ∧
    (usersCollectionHandler Example.env Example.storeAB (Example.get "1" "10" "US")).1
      = some ⟨200, Body.users [Example.bob]⟩ ∧
    (usersCollectionHandler Example.env Example.storeAB (Example.get "1" "10" "uk")).1
      = some ⟨200, Body.null⟩ :=
  ⟨(country_filter_exact Example.env Example.storeAB (Example.get "1" "10" "FR") rfl).1.trans rfl,
   (country_filter_exact Example.env Example.storeAB (Example.get "1" "10" "UK") rfl).1.trans rfl,
   (country_filter_exact Example.env Example.storeAB (Example.get "1" "10" "US") rfl).1.trans rfl,
   (country_filter_exact Example.env Example.storeAB (Example.get "1" "10" "uk") rfl).1.trans rfl⟩

/-! ## Create, then list -/

/-- C8, as stated, fails: the store holds Alice, `POST /users` creates a second
record, and `GET /users?pageSize=1`, when the map is walked with Alice first,
answers Alice alone; the created record is not in the response. -/
theorem create_then_list_counterexample :
    (usersCollectionHandler Example.env Example.storeA (Example.post (some Example.payload))).1
      = some ⟨201, Body.user { Example.payload with ID := "id-3", CreatedAt := 10, UpdatedAt := 11 }⟩ ∧
    effectivePageSize (Example.get "" "1" "") = 1 ∧
    (usersCollectionHandler Example.envBackwards
        (usersCollectionHandler Example.env Example.storeA (Example.post (some Example.payload))).2
        (Example.get "" "1" "")).1
      = some ⟨200, Body.users [Example.alice]⟩ ∧
    ¬ ∃ rec ∈ [Example.alice], rec.FirstName = Example.payload.FirstName :=
  ⟨by decide, by decide, by decide, by decide⟩

/-- C8 (amended): for every store, decodable payload P and pageSize, after a
successful `POST /users` with P the created record (P with the generated ID
and the two clock readings, which are non-empty when the generator and the
clock give non-empty values) is in the listing of the store whatever the
iteration order, and an unfiltered `GET /users` for the first page with that
pageSize answers 200 with a response that includes it, provided the store then
holds at most pageSize records. -/
theorem create_then_list (envP envG : Env) (s : Storage) (rp rg : Request) (P : User)
    (hg : envP.generateID ≠ "") (ht1 : envP.now1 ≠ 0) (ht2 : envP.now2 ≠ 0)
    (hmp : rp.Method = MethodPost) (hbp : rp.Body = some P)
    (hmg : rg.Method = MethodGet) (hc : rg.country = "") (hpage : effectivePage rg = 1)
    (hfit : ((usersCollectionHandler envP s rp).2.users.entries.length : Int) ≤ effectivePageSize rg) :
    ∃ rec : User,
      (usersCollectionHandler envP s rp).1 = some ⟨StatusCreated, Body.user rec⟩ ∧
      rec.FirstName = P.FirstName ∧ rec.LastName = P.LastName ∧ rec.Nickname = P.Nickname ∧
      rec.Password = P.Password ∧ rec.Email = P.Email ∧ rec.Country = P.Country ∧
      rec.ID = envP.generateID ∧ rec.ID ≠ "" ∧
      rec.CreatedAt = envP.now1 ∧ rec.CreatedAt ≠ 0 ∧
      rec.UpdatedAt = envP.now2 ∧ rec.UpdatedAt ≠ 0 ∧
      rec ∈ (usersCollectionHandler envP s rp).2.ListUsers envG.iter ∧
      ∃ w : List User,
        (usersCollectionHandler envG (usersCollectionHandler envP s rp).2 rg).1
          = some ⟨StatusOK, Body.users w⟩ ∧
        rec ∈ w := by
  have hcreate := usersCollectionHandler_post envP s rp P hmp hbp
  have hmem : { P with ID := envP.generateID, CreatedAt := envP.now1, UpdatedAt := envP.now2 }
      ∈ (usersCollectionHandler envP s rp).2.ListUsers envG.iter := by
    rw [hcreate]
    exact (Storage.mem_ListUsers _ _ _).mpr ⟨envP.generateID, Storage.lookup_AddUser_self s _⟩
  refine ⟨{ P with ID := envP.generateID, CreatedAt := envP.now1, UpdatedAt := envP.now2 },
    by rw [hcreate], rfl, rfl, rfl, rfl, rfl, rfl, rfl, hg, rfl, ht1, rfl, ht2, hmem, ?_⟩
  have hs := effectivePageSize_pos rg
  have hlt := effectivePageSize_lt rg
  have hr : (effectivePage rg - 1) * effectivePageSize rg + effectivePageSize rg < 2 ^ 63 := by
    rw [hpage]; simpa using hlt
  rw [usersCollectionHandler_get envG _ rg hmg, listUsersOf_in_range _ rg hr, hc, keeps_no_filter,
    hpage, windowBody_of_ne_nil _ _ (List.ne_nil_of_mem hmem)]
  refine ⟨_, rfl, ?_⟩
  rw [← Storage.length_ListUsers _ envG.iter] at hfit
  have h1 : (min ((1 - 1) * effectivePageSize rg + effectivePageSize rg)
      (((usersCollectionHandler envP s rp).2.ListUsers envG.iter).length : Int)).toNat
      = ((usersCollectionHandler envP s rp).2.ListUsers envG.iter).length := by
    omega
  have h2 : (min ((1 - 1) * effectivePageSize rg)
      (((usersCollectionHandler envP s rp).2.ListUsers envG.iter).length : Int)).toNat = 0 := by
    omega
  rw [h1, h2, List.take_length, List.drop_zero]
  exact hmem

theorem create_then_list_witness :
    ∃ rec : User,
      (usersCollectionHandler Example.env Example.storeA (Example.post (some Example.payload))).1
        = some ⟨StatusCreated, Body.user rec⟩ ∧
      rec.FirstName = "AliceUpdated" ∧ rec.LastName = "Smith" ∧ rec.Nickname = "AS123" ∧
      rec.Password = "newpassword" ∧ rec.Email = "alice.updated@example.com" ∧ rec.Country = "US" ∧
      rec.ID = "id-3" ∧ rec.ID ≠ "" ∧ rec.CreatedAt = 10 ∧ rec.CreatedAt ≠ 0 ∧
      rec.UpdatedAt = 11 ∧ rec.UpdatedAt ≠ 0 ∧
      rec ∈ (usersCollectionHandler Example.env Example.storeA
          (Example.post (some Example.payload))).2.ListUsers Example.envBackwards.iter ∧
      ∃ w : List User,
        (usersCollectionHandler Example.envBackwards
            (usersCollectionHandler Example.env Example.storeA (Example.post (some Example.payload))).2
            (Example.get "" "2" "")).1
          = some ⟨StatusOK, Body.users w⟩ ∧
        rec ∈ w :=
  create_then_list Example.env Example.envBackwards Example.storeA
    (Example.post (some Example.payload)) (Example.get "" "2" "") Example.payload
    (by decide) (by decide) (by decide) rfl rfl rfl rfl rfl (by decide)

/-! ## The store: keys, IDs and the listing -/

theorem Storage.lookup_of_mem_entries (s : Storage) (e : Sigma (fun _ : String => User))
    (he : e ∈ s.users.entries) : s.users.lookup e.1 = some e.2 :=
  Option.mem_def.mp (AList.mem_lookup_iff.mpr he)

theorem Storage.Reachable.entry_ID {s : Storage} (hs : Storage.Reachable s)
    (e : Sigma (fun _ : String => User)) (he : e ∈ s.users.entries) : e.2.ID = e.1 :=
  hs.ID_eq_key e.1 e.2 (s.lookup_of_mem_entries e he)

theorem Storage.ListUsers_perm_values (s : Storage) (it : MapIter) :
    (s.ListUsers it).Perm (s.users.entries.map (fun e => e.2)) := by
  rw [Storage.ListUsers_eq_map]
  exact (it.perm _).map _

theorem Storage.Reachable.ListUsers_IDs_nodup {s : Storage} (hs : Storage.Reachable s)
    (it : MapIter) : ((s.ListUsers it).map User.ID).Nodup := by
  have hperm : ((s.ListUsers it).map User.ID).Perm (s.users.entries.map (fun e => e.2.ID)) := by
    have h := (s.ListUsers_perm_values it).map User.ID
    rwa [List.map_map] at h
  have hkeys : s.users.entries.map (fun e => e.2.ID) = s.users.keys := by
    unfold AList.keys List.keys
    apply List.map_congr_left
    intro e he
    exact hs.entry_ID e he
  rw [hperm.nodup_iff, hkeys]
  exact s.users.keys_nodup

theorem Storage.Reachable.ListUsers_nodup {s : Storage} (hs : Storage.Reachable s)
    (it : MapIter) : (s.ListUsers it).Nodup :=
  List.Nodup.of_map User.ID (hs.ListUsers_IDs_nodup it)

/-- C11: in every store reachable from New() by AddUser, UpdateUser and
DeleteUser, each entry's key is the ID of the record stored under it; hence the
IDs of the records ListUsers returns are pairwise distinct, whatever the
iteration order, and a record GetUser finds under id has ID id. -/
theorem id_uniqueness (s : Storage) (hs : Storage.Reachable s) :
    (∀ e ∈ s.users.entries, e.2.ID = e.1) ∧
    (∀ it : MapIter, ((s.ListUsers it).map User.ID).Nodup) ∧
    (∀ (id : String) (u : User), s.GetUser id = (u, true) → u.ID = id) :=
  ⟨fun e he => hs.entry_ID e he,
   fun it => hs.ListUsers_IDs_nodup it,
   fun id u h => hs.ID_eq_key id u (Storage.lookup_of_GetUser_true h)⟩

theorem id_uniqueness_witness :
    (∀ e ∈ Example.storeAB.users.entries, e.2.ID = e.1) ∧
    (∀ it : MapIter, ((Example.storeAB.ListUsers it).map User.ID).Nodup) ∧
    (∀ (id : String) (u : User), Example.storeAB.GetUser id = (u, true) → u.ID = id) :=
  id_uniqueness Example.storeAB
    (Storage.Reachable.add _ _ (Storage.Reachable.add _ _ Storage.Reachable.new))

/-! ## Delete on the store -/

theorem Storage.DeleteUser_absent (s : Storage) (id : String) (h : (s.GetUser id).2 = false) :
    s.DeleteUser id = s := by
  have hnot : id ∉ s.users := AList.lookup_eq_none.mp (Storage.lookup_of_GetUser_snd_false h)
  have hent : (s.users.erase id).entries = s.users.entries :=
    List.kerase_of_not_mem_keys (AList.mem_keys.not.mp hnot)
  cases s with
  | mk users =>
    simp only [Storage.DeleteUser]
    exact congrArg Storage.mk (AList.ext hent)

/-- C12: for every store s and id, after DeleteUser(id) GetUser(id) reports not
found and GetUser(j) for every other j returns what it returned in s; when id
is absent from s, DeleteUser(id) yields s itself; so deleting the same id a
second time changes nothing. -/
theorem store_delete (s : Storage) (id : String) :
    (s.DeleteUser id).GetUser id = (User.zero, false) ∧
    (∀ j : String, j ≠ id → (s.DeleteUser id).GetUser j = s.GetUser j) ∧
    ((s.GetUser id).2 = false → s.DeleteUser id = s) ∧
    (s.DeleteUser id).DeleteUser id = s.DeleteUser id := by
  have hgone : (s.DeleteUser id).GetUser id = (User.zero, false) :=
    Storage.GetUser_of_lookup_none (Storage.lookup_DeleteUser_self s id)
  refine ⟨hgone, ?_, Storage.DeleteUser_absent s id, ?_⟩
  · intro j hj
    exact Storage.GetUser_congr (Storage.lookup_DeleteUser_ne s id hj)
  · exact Storage.DeleteUser_absent _ id (by rw [hgone])

theorem store_delete_witness :
    (Example.storeAB.DeleteUser "1").GetUser "1" = (User.zero, false) ∧
    (Example.storeAB.DeleteUser "1").GetUser "2" = Example.storeAB.GetUser "2" ∧
    Example.storeAB.DeleteUser "9" = Example.storeAB ∧
    (Example.storeAB.DeleteUser "1").DeleteUser "1" = Example.storeAB.DeleteUser "1" :=
  ⟨(store_delete Example.storeAB "1").1,
   (store_delete Example.storeAB "1").2.1 "2" (by decide),
   (store_delete Example.storeAB "9").2.2.1 (by decide),
   (store_delete Example.storeAB "1").2.2.2⟩

/-! ## List on the store -/

/-- C13: for every store and every iteration order, ListUsers returns as many
records as the map has entries, the sequence is a permutation of the map's
values (so it holds exactly the stored records); in a reachable store each
stored record occurs in it exactly once; a store fresh from New() lists as
empty. ListUsers is a function of the store and yields no new store. -/
theorem list_is_snapshot (s : Storage) (it : MapIter) :
    (s.ListUsers it).length = s.users.entries.length ∧
    (s.ListUsers it).Perm (s.users.entries.map (fun e => e.2)) ∧
    (∀ u : User, u ∈ s.ListUsers it ↔ ∃ k : String, s.users.lookup k = some u) ∧
    (Storage.Reachable s → ∀ (k : String) (u : User), s.users.lookup k = some u →
      (s.ListUsers it).count u = 1) ∧
    Storage.New.ListUsers it = [] := by
  refine ⟨s.length_ListUsers it, s.ListUsers_perm_values it, s.mem_ListUsers it, ?_, ?_⟩
  · intro hs k u hk
    exact List.count_eq_one_of_mem (hs.ListUsers_nodup it) ((s.mem_ListUsers it u).mpr ⟨k, hk⟩)
  · have hlen : (Storage.New.ListUsers it).length = 0 := by
      rw [Storage.length_ListUsers]
      rfl
    exact List.length_eq_zero.mp hlen

theorem list_is_snapshot_witness :
    (Example.storeAB.ListUsers MapIter.backwards).length = 2 ∧
    (Example.storeAB.ListUsers MapIter.backwards).count Example.alice = 1 ∧
    Storage.New.ListUsers MapIter.backwards = [] :=
  ⟨(list_is_snapshot Example.storeAB MapIter.backwards).1,
   (list_is_snapshot Example.storeAB MapIter.backwards).2.2.2.1
     (Storage.Reachable.add _ _ (Storage.Reachable.add _ _ Storage.Reachable.new))
     "1" Example.alice (by decide),
   (list_is_snapshot Example.storeAB MapIter.backwards).2.2.2.2⟩

/-! ## Routing -/

/-- C15: for every request to the item endpoint, with `rem` the path after
`/users/`: when `rem` is empty or "/" the answer is 400 whatever the method;
otherwise PUT is what updateUser does with id `rem`, DELETE is what deleteUser
does with id `rem`, and every other method is answered 405 with the store as it
was. For every request to the collection endpoint GET is what listUsers does,
POST is what addUser does, and every other method is answered 405 with the
store as it was. -/
theorem routing_and_status (env : Env) (s : Storage) (r : Request) :
    (∀ rem : String, r.Path = "/users/" ++ rem →
      ((rem = "" ∨ rem = "/") →
        specificUserHandler env s r = (some (httpError "User ID required" StatusBadRequest), s)) ∧
      (¬ (rem = "" ∨ rem = "/") →
        (r.Method = MethodPut → specificUserHandler env s r = updateUser env s r rem) ∧
        (r.Method = MethodDelete → specificUserHandler env s r = deleteUser s rem) ∧
        (r.Method ≠ MethodPut → r.Method ≠ MethodDelete →
          specificUserHandler env s r
            = (some (httpError "Method not allowed" StatusMethodNotAllowed), s)))) ∧
    (r.Method = MethodGet → usersCollectionHandler env s r = listUsers env s r) ∧
    (r.Method = MethodPost → usersCollectionHandler env s r = addUser env s r) ∧
    (r.Method ≠ MethodGet → r.Method ≠ MethodPost →
      usersCollectionHandler env s r
        = (some (httpError "Method not allowed" StatusMethodNotAllowed), s)) := by
  refine ⟨?_, ?_, ?_, ?_⟩
  · intro rem hp
    refine ⟨fun h => specificUserHandler_missing_id env s r rem h hp, ?_⟩
    intro h
    have h1 : rem ≠ "" := fun e => h (Or.inl e)
    have h2 : rem ≠ "/" := fun e => h (Or.inr e)
    refine ⟨fun hm => specificUserHandler_put env s r rem h1 h2 hm hp,
      fun hm => specificUserHandler_delete env s r rem h1 h2 hm hp, ?_⟩
    intro hput hdel
    simp [specificUserHandler, hp, TrimPrefix_append, h1, h2, hput, hdel]
  · intro hm
    simp [usersCollectionHandler, hm]
  · intro hm
    have hpg : MethodPost ≠ MethodGet := by decide
    simp [usersCollectionHandler, hm, hpg]
  · intro hget hpost
    simp [usersCollectionHandler, hget, hpost]

theorem routing_and_status_witness :
    specificUserHandler Example.env Example.storeAB (Example.put "" Example.payload)
      = (some (httpError "User ID required" StatusBadRequest), Example.storeAB) ∧
    specificUserHandler Example.env Example.storeAB (Example.put "1" Example.payload)
      = updateUser Example.env Example.storeAB (Example.put "1" Example.payload) "1" ∧
    specificUserHandler Example.env Example.storeAB (Example.delete "1")
      = deleteUser Example.storeAB "1" ∧
    specificUserHandler Example.env Example.storeAB ⟨"GET", "/users/" ++ "1", "", "", "", none⟩
      = (some (httpError "Method not allowed" StatusMethodNotAllowed), Example.storeAB) ∧
    usersCollectionHandler Example.env Example.storeAB (Example.get "" "" "")
      = listUsers Example.env Example.storeAB (Example.get "" "" "") ∧
    usersCollectionHandler Example.env Example.storeAB (Example.post none)
      = addUser Example.env Example.storeAB (Example.post none) ∧
    usersCollectionHandler Example.env Example.storeAB (Example.delete "1")
      = (some (httpError "Method not allowed" StatusMethodNotAllowed), Example.storeAB) :=
  ⟨((routing_and_status Example.env Example.storeAB (Example.put "" Example.payload)).1
      "" rfl).1 (Or.inl rfl),
   (((routing_and_status Example.env Example.storeAB (Example.put "1" Example.payload)).1
      "1" rfl).2 (by decide)).1 rfl,
   (((routing_and_status Example.env Example.storeAB (Example.delete "1")).1
      "1" rfl).2 (by decide)).2.1 rfl,
   (((routing_and_status Example.env Example.storeAB ⟨"GET", "/users/" ++ "1", "", "", "", none⟩).1
      "1" rfl).2 (by decide)).2.2 (by decide) (by decide),
   (routing_and_status Example.env Example.storeAB (Example.get "" "" "")).2.1 rfl,
   (routing_and_status Example.env Example.storeAB (Example.post none)).2.2.1 rfl,
   (routing_and_status Example.env Example.storeAB (Example.delete "1")).2.2.2
     (by decide) (by decide)⟩

/-! ## The first page and the order of insertion -/

theorem listUsersOf_single_page (users : List User) (r : Request)
    (hc : r.country = "") (hp : effectivePage r = 1) (hs : effectivePageSize r = 1) :
    listUsersOf users r = some ⟨StatusOK, windowBody users (users.take 1)⟩ := by
  rw [listUsersOf_in_range users r (by rw [hp, hs]; decide), hc, keeps_no_filter, hp, hs]
  have h2 : (min (((1 : Int) - 1) * 1) (users.length : Int)).toNat = 0 := by omega
  rw [h2, List.drop_zero]
  congr 3
  cases users with
  | nil => rfl
  | cons u t =>
    have h1 : (min (((1 : Int) - 1) * 1 + 1) (((u :: t).length : Nat) : Int)).toNat = 1 := by
      simp only [List.length_cons]; omega
    rw [h1]

/-- C17 fails on the code: in the store built by adding Alice (ID 1) and then Bob
(ID 2), `GET /users?page=1&pageSize=1` answers exactly one record whatever the
iteration order, but which one is the choice of the map iteration: walked one
way it is Bob, the record added last, and walked the other way it is Alice. -/
theorem first_page_depends_on_iteration :
    Example.storeAB = (Storage.New.AddUser Example.alice).AddUser Example.bob ∧
    (∀ env : Env, ∃ u : User,
      (usersCollectionHandler env Example.storeAB (Example.get "1" "1" "")).1
        = some ⟨StatusOK, Body.users [u]⟩) ∧
    (usersCollectionHandler Example.env Example.storeAB (Example.get "1" "1" "")).1
      = some ⟨StatusOK, Body.users [Example.bob]⟩ ∧
    (usersCollectionHandler Example.envBackwards Example.storeAB (Example.get "1" "1" "")).1
      = some ⟨StatusOK, Body.users [Example.alice]⟩ := by
  refine ⟨rfl, ?_, by decide, by decide⟩
  intro env
  rw [usersCollectionHandler_get env _ _ rfl,
    listUsersOf_single_page (Example.storeAB.ListUsers env.iter) (Example.get "1" "1" "") rfl rfl rfl]
  have hlen : (Example.storeAB.ListUsers env.iter).length = 2 := by
    rw [Storage.length_ListUsers]
    rfl
  cases hl : Example.storeAB.ListUsers env.iter with
  | nil => rw [hl] at hlen; cases hlen
  | cons u t => exact ⟨u, rfl⟩

/-! ## Pages of a list -/

theorem listUsersOf_eq_pageWindow (users : List User) (r : Request) :
    listUsersOf users r =
      (pageWindow (users.filter (keeps r.country)) (effectivePage r) (effectivePageSize r)).map
        (fun w => (⟨StatusOK, windowBody (users.filter (keeps r.country)) w⟩ : Response)) := by
  rw [listUsersOf_eq]
  rfl

/-- Without overflow the window of page `i + 1` holds the elements at the
indices from `i * s` up to `(i + 1) * s`, as far as the list goes. -/
theorem pageWindow_in_range (L : List User) (i s : Nat) (hs : 1 ≤ s)
    (hr : (i + 1) * s < 2 ^ 63) :
    pageWindow L ((i : Int) + 1) (s : Int) = some ((L.take ((i + 1) * s)).drop (i * s)) := by
  have hmul : (i + 1) * s = i * s + s := by ring
  have ha : ((i : Int) + 1 - 1) * (s : Int) = ((i * s : Nat) : Int) := by push_cast; ring
  have hr2 : ((i : Int) + 1 - 1) * (s : Int) + (s : Int) < 2 ^ 63 := by
    rw [ha]
    have h : ((i * s + s : Nat) : Int) < 2 ^ 63 := by
      rw [← hmul]
      exact_mod_cast hr
    push_cast at h
    exact h
  unfold pageWindow
  rw [pageBounds_in_range _ _ _ (by omega) (by exact_mod_cast hs) hr2, ha]
  simp only
  rw [sliceExpr_of_bounds _ _ _ (by omega) (by omega) (by omega), hmul]
  congr 1
  by_cases h1 : i * s + s ≤ L.length
  · have e1 : (min (((i * s : Nat) : Int) + (s : Int)) (L.length : Int)).toNat = i * s + s := by omega
    have e2 : (min ((i * s : Nat) : Int) (L.length : Int)).toNat = i * s := by omega
    rw [e1, e2]
  · have e1 : (min (((i * s : Nat) : Int) + (s : Int)) (L.length : Int)).toNat = L.length := by
      omega
    rw [e1, List.take_length, List.take_of_length_le (by omega : L.length ≤ i * s + s)]
    by_cases h2 : i * s ≤ L.length
    · have e2 : (min ((i * s : Nat) : Int) (L.length : Int)).toNat = i * s := by omega
      rw [e2]
    · have e2 : (min ((i * s : Nat) : Int) (L.length : Int)).toNat = L.length := by omega
      rw [e2, List.drop_eq_nil_of_le (Nat.le_refl _), List.drop_eq_nil_of_le (by omega)]

theorem windows_flatten_take (L : List User) (s k : Nat) :
    ((List.range k).map (fun i => (L.take ((i + 1) * s)).drop (i * s))).flatten
      = L.take (k * s) := by
  induction k with
  | zero => simp
  | succ k ih =>
    rw [List.range_succ, List.map_append, List.flatten_append, ih]
    simp only [List.map_cons, List.map_nil, List.flatten_cons, List.flatten_nil, List.append_nil]
    have hle : k * s ≤ (k + 1) * s := Nat.mul_le_mul_right s (Nat.le_succ k)
    have h : L.take (k * s) = (L.take ((k + 1) * s)).take (k * s) := by
      rw [List.take_take, Nat.min_eq_left hle]
    rw [h, List.take_append_drop]

theorem ceil_mul_ge (n s : Nat) (hs : 1 ≤ s) : n ≤ ((n + s - 1) / s) * s := by
  have h1 := Nat.div_add_mod (n + s - 1) s
  have h2 := Nat.mod_lt (n + s - 1) (by omega : s > 0)
  rw [Nat.mul_comm] at h1
  omega

theorem lt_ceil_mul_lt (n s i : Nat) (hs : 1 ≤ s) (hi : i < (n + s - 1) / s) : i * s < n := by
  have h1 : (i + 1) * s ≤ ((n + s - 1) / s) * s := Nat.mul_le_mul_right s hi
  have h2 : ((n + s - 1) / s) * s ≤ n + s - 1 := Nat.div_mul_le_self _ _
  have h3 : (i + 1) * s = i * s + s := by ring
  omega

/-- Pages of a list shorter than `2 ^ 62`, for a page size `s` within `int`: each
of the pages `1 .. ceil(N/s)` is answered and is the run of elements from index
`(p-1)*s` up to `p*s`, so consecutive pages are adjacent and disjoint; put one
after the other in order they give the list back; and every later page whose
offset does not overflow is empty. -/
theorem pages_partition_in_range (L : List User) (s : Nat) (hs : 1 ≤ s) (hs63 : s < 2 ^ 63)
    (hN : L.length < 2 ^ 62) :
    (∀ i : Nat, i < (L.length + s - 1) / s →
      pageWindow L ((i : Int) + 1) (s : Int) = some ((L.take ((i + 1) * s)).drop (i * s))) ∧
    ((List.range ((L.length + s - 1) / s)).map
        (fun i : Nat => (pageWindow L ((i : Int) + 1) (s : Int)).getD [])).flatten = L ∧
    (∀ i : Nat, (L.length + s - 1) / s ≤ i → (i + 1) * s < 2 ^ 63 →
      pageWindow L ((i : Int) + 1) (s : Int) = some []) := by
  have hwin : ∀ i : Nat, i < (L.length + s - 1) / s →
      pageWindow L ((i : Int) + 1) (s : Int) = some ((L.take ((i + 1) * s)).drop (i * s)) := by
    intro i hi
    apply pageWindow_in_range L i s hs
    have h1 := lt_ceil_mul_lt L.length s i hs hi
    have h3 : (i + 1) * s = i * s + s := by ring
    by_cases h0 : i = 0
    · subst h0; omega
    · have h4 : s ≤ i * s := Nat.le_mul_of_pos_left s (by omega)
      omega
  refine ⟨hwin, ?_, ?_⟩
  · have hmap : (List.range ((L.length + s - 1) / s)).map
          (fun i : Nat => (pageWindow L ((i : Int) + 1) (s : Int)).getD [])
        = (List.range ((L.length + s - 1) / s)).map
          (fun i => (L.take ((i + 1) * s)).drop (i * s)) := by
      apply List.map_congr_left
      intro i hi
      rw [hwin i (List.mem_range.mp hi)]
      rfl
    rw [hmap, windows_flatten_take, List.take_of_length_le (ceil_mul_ge L.length s hs)]
  · intro i hi hr
    rw [pageWindow_in_range L i s hs hr]
    have h1 : L.length ≤ i * s :=
      Nat.le_trans (ceil_mul_ge L.length s hs) (Nat.mul_le_mul_right s hi)
    rw [List.drop_eq_nil_of_le]
    rw [List.length_take]
    omega

theorem pages_partition_in_range_witness :
    ((List.range 2).map
        (fun i : Nat =>
          (pageWindow [Example.alice, Example.bob] ((i : Int) + 1) ((1 : Nat) : Int)).getD [])).flatten
      = [Example.alice, Example.bob] :=
  (pages_partition_in_range [Example.alice, Example.bob] 1 (by decide) (by decide) (by decide)).2.1

/-- C18 fails on the code for pages beyond the last: over the one-record list and
pageSize 4, `ceil(N/s)` is 1, yet page 4611686018427387905 gets the window
`[0:1]`, the whole list again, because its offset `2^62 * 4` wraps to 0; and
page 9223372036854775807 with pageSize 10 gets no window at all, because its
bounds wrap to -20 and -10 and the slice expression panics. -/
theorem pages_beyond_last_not_empty :
    ([Example.alice].length + 4 - 1) / 4 = 1 ∧
    pageWindow [Example.alice] 1 4 = some [Example.alice] ∧
    pageWindow [Example.alice] 2 4 = some [] ∧
    pageWindow [Example.alice] 4611686018427387905 4 = some [Example.alice] ∧
    listUsersOf [Example.alice] (Example.get "4611686018427387905" "4" "")
      = some ⟨StatusOK, Body.users [Example.alice]⟩ ∧
    pageWindow [Example.alice] 9223372036854775807 10 = none ∧
    listUsersOf [Example.alice] (Example.get "9223372036854775807" "10" "") = none :=
  ⟨by decide, by decide, by decide, by decide, by decide, by decide, by decide⟩

/-! ## `strconv.Atoi` against decimal notation -/

theorem decimalValue_cons (c : Char) (cs : List Char) (n : Nat) :
    decimalValue (c :: cs) n = decimalValue cs (n * 10 + (c.toNat - '0'.toNat)) := rfl

theorem le_decimalValue (ds : List Char) (n : Nat) : n ≤ decimalValue ds n := by
  induction ds generalizing n with
  | nil => exact Nat.le_refl n
  | cons c cs ih =>
    rw [decimalValue_cons]
    exact Nat.le_trans (by omega) (ih _)

/-- The digit loop reads the leading digits; it reports overflow as soon as their
value passes `maxUint64`, else a non-digit if there is one, else the value. -/
theorem parseUintLoop_eq (ds : List Char) (n : Nat) (hn : n ≤ maxUint64) :
    parseUintLoop ds n =
      if decimalValue (ds.takeWhile isDigit) n > maxUint64 then (maxUint64, true)
      else if ds.all isDigit = true then (decimalValue ds n, false)
      else (0, true) := by
  induction ds generalizing n with
  | nil =>
    have h : ¬ (decimalValue ([] : List Char) n > maxUint64) := by
      show ¬ (n > maxUint64)
      omega
    simp only [List.takeWhile_nil, List.all_nil, if_true]
    rw [if_neg h]
    rfl
  | cons c cs ih =>
    by_cases hd : '0' ≤ c ∧ c ≤ '9'
    · have hdig : isDigit c = true := by simp [isDigit, hd]
      have hall : (c :: cs).all isDigit = cs.all isDigit := by simp [hdig]
      rw [List.takeWhile_cons, if_pos hdig, decimalValue_cons, hall, decimalValue_cons]
      unfold parseUintLoop
      rw [if_pos hd]
      by_cases h1 : n ≥ maxUint64 / 10 + 1
      · rw [if_pos h1]
        have h2 := le_decimalValue (cs.takeWhile isDigit) (n * 10 + (c.toNat - '0'.toNat))
        have h3 : maxUint64 / 10 + 1 = 1844674407370955162 := by decide
        have h4 : maxUint64 = 18446744073709551615 := by decide
        rw [if_pos (by omega)]
      · rw [if_neg h1]
        simp only
        by_cases h5 : n * 10 + (c.toNat - '0'.toNat) > maxUint64
        · rw [if_pos h5]
          have h2 := le_decimalValue (cs.takeWhile isDigit) (n * 10 + (c.toNat - '0'.toNat))
          rw [if_pos (by omega)]
        · rw [if_neg h5]
          exact ih _ (by omega)
    · have hdig : isDigit c = false := by simp [isDigit, hd]
      have hall : (c :: cs).all isDigit = false := by simp [hdig]
      have h : ¬ (decimalValue ([] : List Char) n > maxUint64) := by
        show ¬ (n > maxUint64)
        omega
      rw [List.takeWhile_cons, hdig, hall]
      simp only [Bool.false_eq_true, if_false]
      rw [if_neg h]
      unfold parseUintLoop
      rw [if_neg hd]

theorem Atoi_eq_parseSigned (s : String) :
    Atoi s = parseSigned (isNegative s) (unsignedPart s) := by
  unfold Atoi isNegative unsignedPart
  cases s.data with
  | nil => rfl
  | cons c cs =>
    simp only
    by_cases hp : c = '+'
    · subst hp
      simp
    · by_cases hm : c = '-'
      · subst hm
        simp
      · simp [hp, hm]

/-- The value `strconv.Atoi` returns, case by case on the text. -/
theorem Atoi_value (s : String) :
    (Atoi s).1 =
      if unsignedPart s = [] then 0
      else if decimalValue (leadingDigits s) 0 > maxUint64 then
        (if isNegative s = true then -(2 ^ 63) else 2 ^ 63 - 1)
      else if (unsignedPart s).all isDigit = true then
        (if isNegative s = true then max (-(2 ^ 63)) (-(decimalValue (unsignedPart s) 0 : Int))
          else min (decimalValue (unsignedPart s) 0 : Int) (2 ^ 63 - 1))
      else 0 := by
  rw [Atoi_eq_parseSigned]
  unfold leadingDigits
  generalize isNegative s = neg
  generalize unsignedPart s = ds
  have hmax : maxUint64 = 18446744073709551615 := by decide
  cases ds with
  | nil => rfl
  | cons d t =>
    rw [if_neg (List.cons_ne_nil d t)]
    unfold parseSigned
    simp only
    rw [parseUintLoop_eq (d :: t) 0 (Nat.zero_le _)]
    generalize decimalValue (List.takeWhile isDigit (d :: t)) 0 = lead
    generalize decimalValue (d :: t) 0 = v
    generalize List.all (d :: t) isDigit = alld
    by_cases hov : lead > maxUint64
    · rw [if_pos hov, if_pos hov]
      cases neg with
      | false => simp [hmax]
      | true => simp [hmax]
    · rw [if_neg hov, if_neg hov]
      cases alld with
      | false => simp
      | true =>
        cases neg with
        | false =>
          simp
          split_ifs with h2 <;> dsimp only <;> omega
        | true =>
          simp
          split_ifs with h3 <;> dsimp only <;> omega

theorem leadingDigits_of_all (s : String) (h : (unsignedPart s).all isDigit = true) :
    leadingDigits s = unsignedPart s := by
  unfold leadingDigits
  rw [List.takeWhile_eq_self_iff]
  exact List.all_eq_true.mp h

/-- The test `x < 1` applied to what `strconv.Atoi` returns, against the text of
the parameter: the default for the empty text and for a number that is not
positive; a positive number itself, capped at the largest `int`; and for a text
that is not a number the default, except when the text has no minus sign and
its leading digits pass `maxUint64`, where it is the largest `int`. -/
theorem coerce_value (dflt : Int) (s : String) :
    (s = "" → (if (Atoi s).1 < 1 then dflt else (Atoi s).1) = dflt) ∧
    (∀ v : Int, numberOf s = some v →
      (if (Atoi s).1 < 1 then dflt else (Atoi s).1)
        = if v ≤ 0 then dflt else min v (2 ^ 63 - 1)) ∧
    (numberOf s = none →
      (if (Atoi s).1 < 1 then dflt else (Atoi s).1)
        = if isNegative s = false ∧ decimalValue (leadingDigits s) 0 > maxUint64
          then 2 ^ 63 - 1 else dflt) := by
  have hmax : maxUint64 = 18446744073709551615 := by decide
  refine ⟨?_, ?_, ?_⟩
  · intro hs
    subst hs
    rfl
  · intro v hv
    unfold numberOf at hv
    by_cases hnum : unsignedPart s ≠ [] ∧ (unsignedPart s).all isDigit = true
    · rw [if_pos hnum] at hv
      injection hv with hv
      rw [Atoi_value, if_neg hnum.1, leadingDigits_of_all s hnum.2, if_pos hnum.2, ← hv]
      generalize decimalValue (unsignedPart s) 0 = V
      cases isNegative s with
      | false =>
        simp only [Bool.false_eq_true, if_false]
        split_ifs <;> omega
      | true =>
        simp only [if_true]
        split_ifs <;> omega
    · rw [if_neg hnum] at hv
      cases hv
  · intro hnone
    have hnum : ¬ (unsignedPart s ≠ [] ∧ (unsignedPart s).all isDigit = true) := by
      intro h
      unfold numberOf at hnone
      rw [if_pos h] at hnone
      cases hnone
    by_cases hcond : isNegative s = false ∧ decimalValue (leadingDigits s) 0 > maxUint64
    · have he : unsignedPart s ≠ [] := by
        intro he
        have hlead : decimalValue (leadingDigits s) 0 = 0 := by
          unfold leadingDigits
          rw [he]
          rfl
        have h2 := hcond.2
        omega
      have hval : (Atoi s).1 = 2 ^ 63 - 1 := by
        rw [Atoi_value, if_neg he, if_pos hcond.2, hcond.1]
        rfl
      rw [hval, if_pos hcond]
      rfl
    · have hval : (Atoi s).1 < 1 := by
        rw [Atoi_value]
        by_cases he : unsignedPart s = []
        · rw [if_pos he]
          decide
        · have hall : ¬ ((unsignedPart s).all isDigit = true) := fun h => hnum ⟨he, h⟩
          rw [if_neg he]
          by_cases hov : decimalValue (leadingDigits s) 0 > maxUint64
          · have hneg : isNegative s = true := by
              cases h : isNegative s with
              | false => exact absurd ⟨h, hov⟩ hcond
              | true => rfl
            rw [if_pos hov, hneg]
            decide
          · rw [if_neg hov, if_neg hall]
            decide
      rw [if_pos hval, if_neg hcond]

/-- The coercion of the two query parameters against their text: the effective
page is 1 when the page parameter is absent and when it is a number that is
not positive; when it is a positive number it is that number, capped at
2^63 - 1, the value strconv.Atoi returns; when it is not a number it is 1,
except for a text without a minus sign whose leading digits pass 2^64 - 1,
where it is 2^63 - 1. Likewise the effective pageSize, with 10 for 1. -/
theorem query_coercion (r : Request) :
    (r.page = "" → effectivePage r = 1) ∧
    (∀ v : Int, numberOf r.page = some v →
      effectivePage r = if v ≤ 0 then 1 else min v (2 ^ 63 - 1)) ∧
    (numberOf r.page = none →
      effectivePage r
        = if isNegative r.page = false ∧ decimalValue (leadingDigits r.page) 0 > maxUint64
          then 2 ^ 63 - 1 else 1) ∧
    (r.pageSize = "" → effectivePageSize r = 10) ∧
    (∀ v : Int, numberOf r.pageSize = some v →
      effectivePageSize r = if v ≤ 0 then 10 else min v (2 ^ 63 - 1)) ∧
    (numberOf r.pageSize = none →
      effectivePageSize r
        = if isNegative r.pageSize = false ∧ decimalValue (leadingDigits r.pageSize) 0 > maxUint64
          then 2 ^ 63 - 1 else 10) :=
  ⟨(coerce_value 1 r.page).1, (coerce_value 1 r.page).2.1, (coerce_value 1 r.page).2.2,
   (coerce_value 10 r.pageSize).1, (coerce_value 10 r.pageSize).2.1,
   (coerce_value 10 r.pageSize).2.2⟩

theorem query_coercion_witness :
    effectivePage (Example.get "" "" "") = 1 ∧
    effectivePage (Example.get "3" "25" "") = (if (3 : Int) ≤ 0 then 1 else min 3 (2 ^ 63 - 1)) ∧
    effectivePage (Example.get "-4" "0" "") = (if (-4 : Int) ≤ 0 then 1 else min (-4) (2 ^ 63 - 1)) ∧
    effectivePage (Example.get "1x" "ten" "") = 1 ∧
    effectivePage (Example.get "-99999999999999999999x" "" "") = 1 ∧
    effectivePageSize (Example.get "" "" "") = 10 ∧
    effectivePageSize (Example.get "3" "25" "")
      = (if (25 : Int) ≤ 0 then 10 else min 25 (2 ^ 63 - 1)) ∧
    effectivePageSize (Example.get "-4" "0" "")
      = (if (0 : Int) ≤ 0 then 10 else min 0 (2 ^ 63 - 1)) ∧
    effectivePageSize (Example.get "1x" "ten" "") = 10 :=
  ⟨(query_coercion (Example.get "" "" "")).1 rfl,
   (query_coercion (Example.get "3" "25" "")).2.1 3 (by decide),
   (query_coercion (Example.get "-4" "0" "")).2.1 (-4) (by decide),
   ((query_coercion (Example.get "1x" "ten" "")).2.2.1 (by decide)).trans (by decide),
   ((query_coercion (Example.get "-99999999999999999999x" "" "")).2.2.1 (by decide)).trans
     (by decide),
   (query_coercion (Example.get "" "" "")).2.2.2.1 rfl,
   (query_coercion (Example.get "3" "25" "")).2.2.2.2.1 25 (by decide),
   (query_coercion (Example.get "-4" "0" "")).2.2.2.2.1 0 (by decide),
   ((query_coercion (Example.get "1x" "ten" "")).2.2.2.2.2 (by decide)).trans (by decide)⟩

theorem listUsersOf_huge_page (users : List User) (r : Request)
    (hp : effectivePage r = 9223372036854775807) (hs : effectivePageSize r = 10) :
    listUsersOf users r = none := by
  have hb : ∀ len : Nat, pageBounds 9223372036854775807 10 len = (-20, -10) := by
    intro len
    have hraw : rawBounds 9223372036854775807 10 = (-20, -10) := rfl
    have h1 : ¬ ((-20 : Int) > (len : Int)) := by omega
    have h2 : ¬ ((-10 : Int) > (len : Int)) := by omega
    simp only [pageBounds, hraw, h1, h2, if_false]
  rw [listUsersOf_eq, hp, hs, hb]
  simp only
  rw [sliceExpr_of_neg _ _ _ (by decide)]
  rfl

/-- C14 fails on the code: the page parameter `99999999999999999999x` is not a
number, so the effective page is to be 1, as it is for the other texts that
are not numbers (`1x`, `-99999999999999999999x`); but `strconv.Atoi` stops at
the twentieth digit, where the value passes the `uint64` range, and returns the
largest `int` with a range error, `listUsers` drops the error, and the
effective page is 9223372036854775807. With pageSize absent the request then
ends in a run-time panic, for every store. The same text as pageSize gives
9223372036854775807 instead of 10. -/
theorem coercion_misses_range_error (env : Env) (s : Storage) :
    numberOf "99999999999999999999x" = none ∧
    coerceSpec 1 "99999999999999999999x" = 1 ∧
    Atoi "99999999999999999999x" = (9223372036854775807, true) ∧
    effectivePage (Example.get "99999999999999999999x" "" "") = 9223372036854775807 ∧
    effectivePage (Example.get "1x" "" "") = 1 ∧
    effectivePage (Example.get "-99999999999999999999x" "" "") = 1 ∧
    coerceSpec 10 "99999999999999999999x" = 10 ∧
    effectivePageSize (Example.get "" "99999999999999999999x" "") = 9223372036854775807 ∧
    (usersCollectionHandler env s (Example.get "99999999999999999999x" "" "")).1 = none := by
  refine ⟨by decide, by decide, by decide, by decide, by decide, by decide, by decide,
    by decide, ?_⟩
  rw [usersCollectionHandler_get env s _ rfl]
  exact listUsersOf_huge_page _ _ (by decide) (by decide)

/-! ## A filter that matches no record -/

/-- C4 fails on the code in its last part: in the store that holds a UK user and
a US user, `GET /users?country=FR` matches no record, `filteredUsers` stays the
nil slice it was declared as, and the body handed to the encoder is the nil
slice, written `null`, whatever the iteration order; the claim says an empty
array. The listing itself starts from `make`, and a page beyond the data of a
non-empty listing is answered with an empty array. The filters UK and US
answer exactly the UK user and the US user. -/
theorem filter_without_match_writes_null (env : Env) :
    (usersCollectionHandler env Example.storeAB (Example.get "" "" "FR")).1
      = some ⟨StatusOK, Body.null⟩ ∧
    Body.null ≠ Body.users [] ∧
    filterUsers "FR" [Example.alice, Example.bob] = Slice.nil ∧
    (usersCollectionHandler env Example.storeAB (Example.get "" "" "UK")).1
      = some ⟨StatusOK, Body.users [Example.alice]⟩ ∧
    (usersCollectionHandler env Example.storeAB (Example.get "" "" "US")).1
      = some ⟨StatusOK, Body.users [Example.bob]⟩ ∧
    (usersCollectionHandler env Example.storeA (Example.get "2" "10" "")).1
      = some ⟨StatusOK, Body.users []⟩ := by
  have hperm : (Example.storeAB.ListUsers env.iter).Perm [Example.bob, Example.alice] :=
    Example.storeAB.ListUsers_perm_values env.iter
  have hfilter : ∀ c : String,
      ((Example.storeAB.ListUsers env.iter).filter (keeps c)).Perm
        ([Example.bob, Example.alice].filter (keeps c)) :=
    fun c => hperm.filter (keeps c)
  have hanswer : ∀ c : String, listUsersOf (Example.storeAB.ListUsers env.iter) (Example.get "" "" c)
      = some ⟨StatusOK, windowBody ((Example.storeAB.ListUsers env.iter).filter (keeps c))
          ((Example.storeAB.ListUsers env.iter).filter (keeps c))⟩ := by
    intro c
    have hlen : ((Example.storeAB.ListUsers env.iter).filter (keeps c)).length ≤ 2 := by
      rw [(hfilter c).length_eq]
      exact List.length_filter_le _ _
    have hp : effectivePage (Example.get "" "" c) = 1 := rfl
    have hs : effectivePageSize (Example.get "" "" c) = 10 := rfl
    rw [listUsersOf_in_range _ _ (by rw [hp, hs]; decide), hp, hs]
    have hk : (Example.get "" "" c).country = c := rfl
    rw [hk]
    have h1 : (min (((1 : Int) - 1) * 10 + 10)
        (((Example.storeAB.ListUsers env.iter).filter (keeps c)).length : Int)).toNat
        = ((Example.storeAB.ListUsers env.iter).filter (keeps c)).length := by omega
    have h2 : (min (((1 : Int) - 1) * 10)
        (((Example.storeAB.ListUsers env.iter).filter (keeps c)).length : Int)).toNat = 0 := by
      omega
    rw [h1, h2, List.take_length, List.drop_zero]
  refine ⟨?_, by decide, by decide, ?_, ?_, ?_⟩
  · have h0 : (Example.storeAB.ListUsers env.iter).filter (keeps "FR") = [] :=
      List.Perm.eq_nil (hfilter "FR")
    rw [usersCollectionHandler_get env _ _ rfl, hanswer "FR", h0]
    rfl
  · have h0 : (Example.storeAB.ListUsers env.iter).filter (keeps "UK") = [Example.alice] :=
      List.perm_singleton.mp (hfilter "UK")
    rw [usersCollectionHandler_get env _ _ rfl, hanswer "UK", h0]
    rfl
  · have h0 : (Example.storeAB.ListUsers env.iter).filter (keeps "US") = [Example.bob] :=
      List.perm_singleton.mp (hfilter "US")
    rw [usersCollectionHandler_get env _ _ rfl, hanswer "US", h0]
    rfl
  · rw [usersCollectionHandler_get env _ _ rfl, storeA_ListUsers env.iter]
    rfl

end UserService
